import Mathlib

/-!
Shallow embedding of the Rubiks-cube layer-rotation engine of `src/cube.ts`
(class `RubiksCube`, module-level helpers `nearestClampDistance` and
`easeInOutCubic`), together with proofs of the specification claims.

Modelling conventions:
* JavaScript numbers are modelled as elements of a linear ordered field `K`
  (instantiated with `ℝ` in the claim statements).  The special IEEE values
  produced by division by zero in the animation-progress computation are
  modelled explicitly by the type `JSNum`.
* `THREE.Vector3` is `Vec3`, the rotation part of a `THREE.Matrix4` is `Mat3`.
  `Matrix4.makeRotationAxis(axis, angle)` first computes `c = cos angle` and
  `s = sin angle`; the embedding `makeRotationAxis` takes the pair `(c, s)`
  directly so that the matrix algebra stays computable, and the `ℝ`-level
  wrappers (`applyRotation`, `rotateEntireCube`, ...) feed it
  `Real.cos angle` / `Real.sin angle` exactly as the source does.
* A sub-cube (`RubiksPiece`, created with its default `size = 1`) is a
  `CubeUnit`: its world position plus its accumulated orientation.
  `Object3D.applyMatrix4 m` premultiplies: position becomes `m ⬝ pos` and the
  orientation becomes `m ⬝ orient`.
* `THREE.Box3.expandByObject` grows the box by each piece's geometry, which
  spans `1/2` on each side of its position; `Box3.getCenter` of an empty box
  is the origin.  `calculateGroupCenter` reproduces exactly that.
* The mutable fields of the `RubiksCube` class form `EngineState`; the
  nullable TypeScript fields are `Option`s.  Methods that `throw` are
  embedded as `Except String` values (both throws occur before any unit is
  mutated, so no state needs to be carried into the error case).
* One animation frame of `animateSectionRotation` / `animateCubeRotation` is
  `sectionTick` / `cubeTick`, taking the already-computed progress value;
  `jsProgress` models `Math.min(elapsedTime / (duration / 1000), 1)` with
  JavaScript division semantics (`0/0 = NaN`, `x/0 = ±Infinity`) and
  `Math.min`'s NaN propagation.
-/

namespace RubiksCube

variable {K : Type} [LinearOrderedField K]

/-- The axis union type `'x' | 'y' | 'z'` of the source. -/
inductive Axis : Type
  | x
  | y
  | z
  deriving DecidableEq, Repr

/-- The direction union type `'clockwise' | 'counterclockwise'`. -/
inductive Direction : Type
  | clockwise
  | counterclockwise
  deriving DecidableEq, Repr

/-- A `THREE.Vector3`. -/
structure Vec3 (K : Type) where
  x : K
  y : K
  z : K
  deriving DecidableEq, Repr

/-- Component of a vector along an axis (the source's `position[axis]`). -/
def Vec3.comp (v : Vec3 K) (a : Axis) : K :=
  match a with
  | Axis.x => v.x
  | Axis.y => v.y
  | Axis.z => v.z

/-- Vector addition (`Vector3.add`). -/
def Vec3.add (a b : Vec3 K) : Vec3 K :=
  ⟨a.x + b.x, a.y + b.y, a.z + b.z⟩

/-- Vector subtraction (`Vector3.sub`). -/
def Vec3.sub (a b : Vec3 K) : Vec3 K :=
  ⟨a.x - b.x, a.y - b.y, a.z - b.z⟩

/-- The rotation (upper 3×3, row-major) part of a `THREE.Matrix4`. -/
structure Mat3 (K : Type) where
  m11 : K
  m12 : K
  m13 : K
  m21 : K
  m22 : K
  m23 : K
  m31 : K
  m32 : K
  m33 : K
  deriving DecidableEq, Repr

/-- Identity matrix (a fresh `Object3D` has identity orientation). -/
def Mat3.one : Mat3 K :=
  ⟨1, 0, 0, 0, 1, 0, 0, 0, 1⟩

/-- Matrix applied to a vector. -/
def Mat3.apply (m : Mat3 K) (v : Vec3 K) : Vec3 K :=
  ⟨m.m11 * v.x + m.m12 * v.y + m.m13 * v.z,
   m.m21 * v.x + m.m22 * v.y + m.m23 * v.z,
   m.m31 * v.x + m.m32 * v.y + m.m33 * v.z⟩

/-- Matrix product (`Matrix4.premultiply`: the new transform is `a ⬝ b`). -/
def Mat3.mul (a b : Mat3 K) : Mat3 K :=
  ⟨a.m11 * b.m11 + a.m12 * b.m21 + a.m13 * b.m31,
   a.m11 * b.m12 + a.m12 * b.m22 + a.m13 * b.m32,
   a.m11 * b.m13 + a.m12 * b.m23 + a.m13 * b.m33,
   a.m21 * b.m11 + a.m22 * b.m21 + a.m23 * b.m31,
   a.m21 * b.m12 + a.m22 * b.m22 + a.m23 * b.m32,
   a.m21 * b.m13 + a.m22 * b.m23 + a.m23 * b.m33,
   a.m31 * b.m11 + a.m32 * b.m21 + a.m33 * b.m31,
   a.m31 * b.m12 + a.m32 * b.m22 + a.m33 * b.m32,
   a.m31 * b.m13 + a.m32 * b.m23 + a.m33 * b.m33⟩

/-- One of the 27 sub-cubes: world position and accumulated orientation. -/
structure CubeUnit (K : Type) where
  pos : Vec3 K
  orient : Mat3 K
  deriving DecidableEq, Repr

/-- The unit vector for an axis: `rotationAxis[axis] = 1` applied to a fresh
`THREE.Vector3` (which starts at the origin). -/
def axisVec (a : Axis) : Vec3 K :=
  match a with
  | Axis.x => ⟨1, 0, 0⟩
  | Axis.y => ⟨0, 1, 0⟩
  | Axis.z => ⟨0, 0, 1⟩

/-- The body of `THREE.Matrix4.makeRotationAxis(axis, angle)` after it has
computed `c = cos angle` and `s = sin angle` (row-major entries of the
axis-angle rotation matrix). -/
def makeRotationAxis (axis : Vec3 K) (c s : K) : Mat3 K :=
  let t := 1 - c
  ⟨t * axis.x * axis.x + c,
   t * axis.x * axis.y - s * axis.z,
   t * axis.x * axis.z + s * axis.y,
   t * axis.x * axis.y + s * axis.z,
   t * axis.y * axis.y + c,
   t * axis.y * axis.z - s * axis.x,
   t * axis.x * axis.z - s * axis.y,
   t * axis.y * axis.z + s * axis.x,
   t * axis.z * axis.z + c⟩

/-- The per-cube body of `rotateCubesAroundPivot`: translate by `-pivot`,
apply the rotation matrix (`applyMatrix4`, premultiplying position and
orientation), translate back by `+pivot`. -/
def rotateUnitAroundPivot (pivot : Vec3 K) (r : Mat3 K) (u : CubeUnit K) :
    CubeUnit K :=
  { pos := (r.apply (u.pos.sub pivot)).add pivot
    orient := r.mul u.orient }

/-- Embedding of `rotateCubesAroundPivot(pivot, cubes, axis, angle)` with
the angle given by its cosine/sine pair.  In `rotateEntireCube` the source
passes `this.children`, which at that moment also holds the freshly added
pivot object; the pivot sits last in that list, so every cube is
transformed with the pivot still in place and only the pivot's own
(discarded) transform is affected — the embedding therefore rotates exactly
the cube units. -/
def rotateCubesAroundPivot (pivot : Vec3 K) (cubes : List (CubeUnit K))
    (axis : Axis) (c s : K) : List (CubeUnit K) :=
  let r := makeRotationAxis (axisVec axis) c s
  cubes.map (rotateUnitAroundPivot pivot r)

/-- Embedding of `getSection(position)`: classify a scalar coordinate into section 0, 2
or 1. -/
def getSection (position : K) : Fin 3 :=
  if position < -(1 / 2) then 0
  else if position > 1 / 2 then 2
  else 1

/-- Embedding of `isInSection(position, axis, section)`. -/
def isInSection (position : Vec3 K) (axis : Axis) (sec : Fin 3) : Bool :=
  let value := position.comp axis
  if sec = 0 then decide (value < -(1 / 2))
  else if sec = 1 then decide (-(1 / 2) ≤ value) && decide (value ≤ 1 / 2)
  else decide (value > 1 / 2)

/-- Embedding of `getSectionCubes(axis, section)`: filter the children by
`isInSection`. -/
def getSectionCubes (units : List (CubeUnit K)) (axis : Axis) (sec : Fin 3) :
    List (CubeUnit K) :=
  units.filter fun u => isInSection u.pos axis sec

/-- Minimum of a list of scalars (`0` for the empty list, matching the
center of an empty `THREE.Box3`). -/
def vmin : List K → K
  | [] => 0
  | a :: rest => rest.foldl min a

/-- Maximum of a list of scalars (`0` for the empty list). -/
def vmax : List K → K
  | [] => 0
  | a :: rest => rest.foldl max a

/-- Embedding of `calculateGroupCenter(cubes)`: the center of the
`THREE.Box3` obtained by expanding an empty box by every cube.  Each
axis-aligned piece's geometry spans `1/2` on each side of its position
(default `size = 1`), so the box runs from the minimal position minus `1/2`
to the maximal position plus `1/2` in every coordinate, and the center is
the midpoint.  The embedding fixes the per-piece half-extent at this `1/2`:
for a group of pieces sharing a rotated orientation (the mid-drag case) the
true three.js half-extent is some common `h` per coordinate instead, and
the `±h` cancels in the midpoint exactly as the `±1/2` does here, so the
computed center agrees with three.js in every state the engine produces.
For the empty list this yields the origin, as `Box3.getCenter` does for an
empty box. -/
def calculateGroupCenter (cubes : List (CubeUnit K)) : Vec3 K :=
  let xs := cubes.map fun u => u.pos.x
  let ys := cubes.map fun u => u.pos.y
  let zs := cubes.map fun u => u.pos.z
  ⟨(vmin xs - 1 / 2 + (vmax xs + 1 / 2)) / 2,
   (vmin ys - 1 / 2 + (vmax ys + 1 / 2)) / 2,
   (vmin zs - 1 / 2 + (vmax zs + 1 / 2)) / 2⟩

/-- Embedding of `applyRotation(axis, section, angle)` with the angle given by its
cosine/sine pair: select the section's cubes, bail out if there are none,
compute the group center as pivot, and rotate the selected cubes around it.
The in-place mutation of the selected children is rendered as a map over all
units that transforms exactly those satisfying `isInSection` (the selection
and the pivot are computed before any cube moves, and each cube's update does
not depend on the others). -/
def applyRotationCS (units : List (CubeUnit K)) (axis : Axis) (sec : Fin 3)
    (c s : K) : List (CubeUnit K) :=
  let cubes := getSectionCubes units axis sec
  if cubes.length = 0 then units
  else
    let center := calculateGroupCenter cubes
    let r := makeRotationAxis (axisVec axis) c s
    units.map fun u =>
      if isInSection u.pos axis sec then rotateUnitAroundPivot center r u
      else u

/-- Embedding of `rotateEntireCube(axis, angle)` with the angle given by its cosine/sine
pair: pivot at the center of the bounding box of the whole assembly
(`Box3().setFromObject(this)`), then rotate every unit around it. -/
def rotateEntireCubeCS (units : List (CubeUnit K)) (axis : Axis) (c s : K) :
    List (CubeUnit K) :=
  rotateCubesAroundPivot (calculateGroupCenter units) units axis c s

/-- Embedding of `easeInOutCubic(t)`. -/
def easeInOutCubic (t : K) : K :=
  if t < 1 / 2 then 4 * t * t * t
  else 1 - (-2 * t + 2) ^ 3 / 2

/-- Embedding of `nearestClampDistance(angle, clamps)`: scan the clamp list for the value
nearest to `angle` (strict improvement only, so ties keep the earlier clamp)
and return its signed distance `nearest - angle`.  The source's default
argument is `clamps = [-π/2, 0, π/2]`; callers below pass it explicitly. -/
def nearestClampDistance (angle : K) (clamps : List K) : K :=
  match clamps with
  | [] => 0
  | c0 :: rest =>
    let p := rest.foldl
      (fun (acc : K × K) c =>
        let distance := |angle - c|
        if distance < acc.2 then (c, distance) else acc)
      (c0, |angle - c0|)
    p.1 - angle

/-- A JavaScript number that may be NaN or an infinity. -/
inductive JSNum (K : Type) where
  | nan
  | posInf
  | negInf
  | fin (v : K)
  deriving DecidableEq, Repr

/-- JavaScript division of two finite numbers: `0/0` is NaN and `x/0` is a
signed infinity. -/
def jsDiv (a b : K) : JSNum K :=
  if b = 0 then
    if a = 0 then JSNum.nan
    else if 0 < a then JSNum.posInf
    else JSNum.negInf
  else JSNum.fin (a / b)

/-- JavaScript `Math.min(a, b)` for a possibly non-finite `a` and a finite `b`: NaN
propagates, `+Infinity` loses, `-Infinity` wins. -/
def jsMin (a : JSNum K) (b : K) : JSNum K :=
  match a with
  | JSNum.nan => JSNum.nan
  | JSNum.posInf => JSNum.fin b
  | JSNum.negInf => JSNum.negInf
  | JSNum.fin v => JSNum.fin (min v b)

/-- The progress computation of both animation loops:
`Math.min(elapsedTime / (duration / 1000), 1)`. -/
def jsProgress (elapsed duration : K) : JSNum K :=
  jsMin (jsDiv elapsed (duration / 1000)) 1

/-- Embedding of `initCube`: 27 pieces at positions `(x, y, z) ∈ {-1, 0, 1}³` (scaled by
the default piece size `1`), each with identity orientation, created by the
nested `x`/`y`/`z` loops. -/
def initUnits : List (CubeUnit K) :=
  ([-1, 0, 1] : List K).flatMap fun x =>
    ([-1, 0, 1] : List K).flatMap fun y =>
      ([-1, 0, 1] : List K).map fun z =>
        { pos := ⟨x, y, z⟩, orient := Mat3.one }

/-- The 27 grid positions of the freshly constructed cube. -/
def gridPositions : List (Vec3 K) :=
  (initUnits (K := K)).map fun u => u.pos

/-- Center of the layer `(axis, section)` of a cube whose positions form the
grid: `section - 1` along the axis and `0` along the other coordinates
(abbreviation used by the lemmas below). -/
def sectionCenter (a : Axis) (sec : Fin 3) : Vec3 K :=
  match a with
  | Axis.x => ⟨(sec : K) - 1, 0, 0⟩
  | Axis.y => ⟨0, (sec : K) - 1, 0⟩
  | Axis.z => ⟨0, 0, (sec : K) - 1⟩

/-- Integer skeleton of the 27 grid slots (used to decide distinctness). -/
def gridTriples : List (ℤ × ℤ × ℤ) :=
  ([-1, 0, 1] : List ℤ).flatMap fun x =>
    ([-1, 0, 1] : List ℤ).flatMap fun y =>
      ([-1, 0, 1] : List ℤ).map fun z => (x, y, z)

/-- The action of `applyRotationCS` on a single position of a grid-formed
cube, with the pivot already identified as `sectionCenter` (abbreviation
used by the lemmas below). -/
def gridRotate (a : Axis) (sec : Fin 3) (c s : K) (v : Vec3 K) : Vec3 K :=
  if isInSection v a sec then
    ((makeRotationAxis (axisVec a) c s).apply
      (v.sub (sectionCenter a sec))).add (sectionCenter a sec)
  else v

/-- The action of `rotateEntireCubeCS` on a single position of a grid-formed
cube, with the pivot already identified as the origin (abbreviation used by
the lemmas below). -/
def wholeGridRotate (a : Axis) (c s : K) (v : Vec3 K) : Vec3 K :=
  ((makeRotationAxis (axisVec a) c s).apply
    (v.sub ⟨0, 0, 0⟩)).add ⟨0, 0, 0⟩

/- ℝ-level layer: the operations that consume an actual angle (via
`Real.cos` / `Real.sin`) or the constant `Math.PI`. -/

/-- Embedding of `applyRotation(axis, section, angle)` over `ℝ`:
`makeRotationAxis` computes the cosine and sine of the angle. -/
noncomputable def applyRotation (units : List (CubeUnit ℝ)) (axis : Axis)
    (sec : Fin 3) (angle : ℝ) : List (CubeUnit ℝ) :=
  applyRotationCS units axis sec (Real.cos angle) (Real.sin angle)

/-- Embedding of `rotateEntireCube(axis, angle)` over `ℝ`. -/
noncomputable def rotateEntireCube (units : List (CubeUnit ℝ)) (axis : Axis)
    (angle : ℝ) : List (CubeUnit ℝ) :=
  rotateEntireCubeCS units axis (Real.cos angle) (Real.sin angle)

/-- Result of one animation frame: the updated units, the updated
`rotationAngle` and `isRotating` fields, and whether the animation
finished (`progress` reached `1`, so no further frame is requested and the
completion branch ran). -/
structure TickOut where
  units : List (CubeUnit ℝ)
  rotationAngle : Option ℝ
  isRotating : Bool
  completed : Bool

/-- One frame of `animateSectionRotation` given the progress value `p`
computed for this frame: ease the progress, apply the incremental rotation
`currentAngle - (rotationAngle ?? 0)`, store `currentAngle`; on completion
(`¬ p < 1`) clear `isRotating` and `rotationAngle` (and the source then
invokes the callback). -/
noncomputable def sectionTick (units : List (CubeUnit ℝ))
    (rotationAngle : Option ℝ) (isRotating : Bool) (axis : Axis)
    (sec : Fin 3) (targetAngle p : ℝ) : TickOut :=
  let easedProgress := easeInOutCubic p
  let currentAngle := 0 + targetAngle * easedProgress
  let units' := applyRotation units axis sec
    (currentAngle - rotationAngle.getD 0)
  if p < 1 then ⟨units', some currentAngle, isRotating, false⟩
  else ⟨units', none, false, true⟩

/-- One frame of `animateSectionRotation` at a given elapsed time and
duration: the frame first computes `progress`; if that progress is a finite
number the frame proceeds as `sectionTick`. A NaN progress (elapsed and
duration both zero) poisons the whole frame and is returned as `none`. -/
noncomputable def sectionTickAt (units : List (CubeUnit ℝ))
    (rotationAngle : Option ℝ) (isRotating : Bool) (axis : Axis)
    (sec : Fin 3) (targetAngle duration elapsed : ℝ) : Option TickOut :=
  match jsProgress elapsed duration with
  | JSNum.fin p => some (sectionTick units rotationAngle isRotating
      axis sec targetAngle p)
  | _ => none

/-- One frame of `animateCubeRotation` given the progress value `p`: same
mechanics as `sectionTick` but rotating the entire cube, with the previous
angle read as `this.rotationAngle || 0` (which equals `getD 0`, since the
only falsy number is `0` itself). -/
noncomputable def cubeTick (units : List (CubeUnit ℝ))
    (rotationAngle : Option ℝ) (isRotating : Bool) (axis : Axis)
    (targetAngle p : ℝ) : TickOut :=
  let easedProgress := easeInOutCubic p
  let currentAngle := targetAngle * easedProgress
  let units' := rotateEntireCube units axis
    (currentAngle - rotationAngle.getD 0)
  if p < 1 then ⟨units', some currentAngle, isRotating, false⟩
  else ⟨units', none, false, true⟩

/-- The target angle chosen by `rotate` and `rotateCube`:
`π/2` for clockwise, `-π/2` for counterclockwise. -/
noncomputable def targetAngleFor (direction : Direction) : ℝ :=
  if direction = Direction.clockwise then Real.pi / 2 else -(Real.pi / 2)

/-- The raycast hit recorded on mouse-down: `THREE.Intersection`'s `point`
and optional `normal`. -/
structure Intersect where
  point : Vec3 ℝ
  normal : Option (Vec3 ℝ)

/-- The mutable fields of the `RubiksCube` class that the drag/rotation
logic reads and writes. -/
structure EngineState where
  units : List (CubeUnit ℝ)
  isDragging : Bool
  dragStartX : Option ℝ
  dragStartY : Option ℝ
  initialIntersect : Option Intersect
  selectedFace : Option Axis
  rotationAxis : Option Axis
  rotationSection : Option (Fin 3)
  rotationAngle : Option ℝ
  isRotating : Bool

/-- JavaScript truthiness test `x !== 0` for a possibly-undefined number:
`undefined !== 0` is true. -/
def jsNeqZero (o : Option K) : Bool :=
  match o with
  | none => true
  | some v => decide (v ≠ 0)

/-- The error message of `getRotationAngle` when the grabbed face equals the
rotation axis (the source interpolates the axis into the text). -/
def faceAxisErr : String :=
  "The selected face and rotation axis should not be the same."

/-- The error message of `getRotationAngle` when the truthiness guard on
`delta`, `maxpoint` or `startingPoint` fires. -/
def unableErr : String :=
  "Unable to determine angle. Please check the selected face and rotation axis to make sure they are a valid combination of x, y, and z."

/-- The error message of `setRotation` when no session angle is active. -/
def noAngleErr : String :=
  "Rotation cannot be set without rotation angle being set."

/-- Embedding of `getRotationAngle(deltaX, deltaY)`.  `innerW`/`innerH` are the window
dimensions supplied by the environment.  The source assigns
`maxpoint`/`startingPoint`/`delta` in two `if` blocks whose conditions are
mutually exclusive (the selected face and the rotation axis each pin down at
most one block), rendered here as one case split; the final truthiness guard
`!delta || !maxpoint || !startingPoint` treats both `null`/`undefined` and
the number `0` as missing. -/
noncomputable def getRotationAngle (st : EngineState)
    (innerW innerH deltaX deltaY : ℝ) : Except String ℝ :=
  if st.selectedFace = st.rotationAxis then Except.error faceAxisErr
  else
    let isXAxis := st.selectedFace = some Axis.x
    let isYAxis := st.selectedFace = some Axis.y
    let isZAxis := st.selectedFace = some Axis.z
    let hasXRotationAxis := st.rotationAxis = some Axis.x
    let hasYRotationAxis := st.rotationAxis = some Axis.y
    let hasZRotationAxis := st.rotationAxis = some Axis.z
    let triple : Option ℝ × Option ℝ × Option ℝ :=
      if (isXAxis ∧ hasYRotationAxis) ∨ (isYAxis ∧ hasZRotationAxis) ∨
          (isZAxis ∧ hasYRotationAxis) then
        (some innerW, st.dragStartX, some (if isYAxis then -deltaX else deltaX))
      else if (isXAxis ∧ hasZRotationAxis) ∨ (isYAxis ∧ hasXRotationAxis) ∨
          (isZAxis ∧ hasXRotationAxis) then
        (some innerH, st.dragStartY, some deltaY)
      else (none, none, none)
    match triple with
    | (some maxpoint, some startingPoint, some delta) =>
      if delta = 0 ∨ maxpoint = 0 ∨ startingPoint = 0 then
        Except.error unableErr
      else
        let maxDelta := if delta > 0 then maxpoint - startingPoint
          else startingPoint
        let angle := delta / maxDelta * Real.pi / 2
        Except.ok (min (max angle (-(Real.pi / 2))) (Real.pi / 2))
    | _ => Except.error unableErr

/-- Embedding of `setRotation(axis, section, deltaX, deltaY)`: fail fast when no session
angle is active, otherwise resolve the new absolute angle and apply only the
remaining delta. -/
noncomputable def setRotation (st : EngineState) (axis : Axis) (sec : Fin 3)
    (innerW innerH deltaX deltaY : ℝ) : Except String EngineState :=
  match st.rotationAngle with
  | none => Except.error noAngleErr
  | some ra =>
    match getRotationAngle st innerW innerH deltaX deltaY with
    | Except.error e => Except.error e
    | Except.ok angle =>
      let remainingRotation := angle - ra
      Except.ok { st with
        units := applyRotation st.units axis sec remainingRotation
        rotationAngle := some angle }

/-- Embedding of `onMouseMove(event)` for a pointer at `(clientX, clientY)`: bail out
unless a drag with a recorded hit and start point is active; bail out unless
both screen deltas reach the 10px threshold; if the session is fully
resolved, track the angle via `setRotation`; otherwise resolve the axis from
the (possibly undefined) components of the hit's face normal and the
dominant screen delta, the face from the non-zero component, and the section
from the hit point's coordinate along the resolved axis. -/
noncomputable def onMouseMove (st : EngineState)
    (innerW innerH clientX clientY : ℝ) : Except String EngineState :=
  match st.initialIntersect with
  | none => Except.ok st
  | some inter =>
    if st.isDragging = false then Except.ok st
    else
      match st.dragStartX, st.dragStartY with
      | some startX, some startY =>
        let deltaX := clientX - startX
        let deltaY := clientY - startY
        if |deltaX| < 10 ∨ |deltaY| < 10 then Except.ok st
        else
          match st.rotationAxis, st.rotationSection, st.rotationAngle with
          | some ax, some sec, some _ =>
            setRotation st ax sec innerW innerH deltaX deltaY
          | _, _, _ =>
            let nx := inter.normal.map fun n => n.x
            let ny := inter.normal.map fun n => n.y
            let nz := inter.normal.map fun n => n.z
            let st1 := { st with rotationAngle := some 0 }
            let st2 := if jsNeqZero nx then { st1 with
                rotationAxis := some (if |deltaX| > |deltaY| then Axis.y
                  else Axis.z)
                selectedFace := some Axis.x }
              else st1
            let st3 := if jsNeqZero ny then { st2 with
                rotationAxis := some (if |deltaX| > |deltaY| then Axis.z
                  else Axis.x)
                selectedFace := some Axis.y }
              else st2
            let st4 := if jsNeqZero nz then { st3 with
                rotationAxis := some (if |deltaX| > |deltaY| then Axis.y
                  else Axis.x)
                selectedFace := some Axis.z }
              else st3
            match st4.rotationAxis with
            | some ax => Except.ok { st4 with
                rotationSection := some (getSection (inter.point.comp ax)) }
            | none => Except.ok st4
      | _, _ => Except.ok st

/-- Embedding of `onMouseUp(event)`: stop dragging; if the session is fully resolved
(`rotationAxis` truthy, `rotationSection` and `rotationAngle` non-null),
apply the residual snap delta `nearestClampDistance(rotationAngle)` with the
default clamp list `[-π/2, 0, π/2]`; clear the session fields. -/
noncomputable def onMouseUp (st : EngineState) : EngineState :=
  let st' := { st with isDragging := false }
  match st'.rotationAxis, st'.rotationSection, st'.rotationAngle with
  | some ax, some sec, some ang =>
    { st' with
      units := applyRotation st'.units ax sec
        (nearestClampDistance ang [-(Real.pi / 2), 0, Real.pi / 2])
      rotationAxis := none
      rotationSection := none
      rotationAngle := none }
  | _, _, _ =>
    { st' with
      rotationAxis := none
      rotationSection := none
      rotationAngle := none }

/-- The whole-cube animation request produced by `rotateCube` when its guard
passes (handed to `animateCubeRotation`).  The source's `rotateCube` only
accepts the axes `x` and `y`. -/
structure CubeAnim where
  axis : Axis
  targetAngle : ℝ
  duration : ℝ

/-- Embedding of `rotateCube(axis, direction, duration)`: no-op while a whole-cube
rotation is in flight (`isRotating`); otherwise set the guard and start the
animation. -/
noncomputable def rotateCube (st : EngineState) (axis : Axis)
    (direction : Direction) (duration : ℝ) : EngineState × Option CubeAnim :=
  if st.isRotating then (st, none)
  else ({ st with isRotating := true },
    some ⟨axis, targetAngleFor direction, duration⟩)

/-- A concrete engine state used by the explicit witnesses below: the fresh
cube, no drag in progress. -/
noncomputable def freshState : EngineState :=
  { units := initUnits
    isDragging := false
    dragStartX := none
    dragStartY := none
    initialIntersect := none
    selectedFace := none
    rotationAxis := none
    rotationSection := none
    rotationAngle := none
    isRotating := false }

/-- A concrete primed, unresolved drag state used by witnesses and
counterexamples below: the pointer went down at `(100, 100)` and hit the
front `z` face at `(0.3, -0.2, 1.5)`. -/
noncomputable def primedState : EngineState :=
  { freshState with
    isDragging := true
    dragStartX := some 100
    dragStartY := some 100
    initialIntersect := some ⟨⟨0.3, -0.2, 1.5⟩, some ⟨0, 0, 1⟩⟩ }

/-! ### Elementary lemmas about the embedded operations -/

lemma foldl_min_le_init (l : List K) (a : K) : l.foldl min a ≤ a := by
  induction l generalizing a with
  | nil => exact le_refl a
  | cons c t ih => exact le_trans (ih (min a c)) (min_le_left a c)

lemma foldl_min_le_mem {l : List K} {b : K} (h : b ∈ l) (a : K) :
    l.foldl min a ≤ b := by
  induction l generalizing a with
  | nil => cases h
  | cons c t ih =>
    rcases List.mem_cons.mp h with rfl | h
    · exact le_trans (foldl_min_le_init t (min a b)) (min_le_right a b)
    · exact ih h (min a c)

lemma foldl_min_mem (l : List K) (a : K) :
    l.foldl min a = a ∨ l.foldl min a ∈ l := by
  induction l generalizing a with
  | nil => exact Or.inl rfl
  | cons c t ih =>
    rcases ih (min a c) with h | h
    · rcases min_choice a c with hc | hc
      · exact Or.inl (by rw [List.foldl_cons, h, hc])
      · exact Or.inr (by rw [List.foldl_cons, h, hc]; exact List.mem_cons_self c t)
    · exact Or.inr (List.mem_cons_of_mem c h)

lemma le_foldl_max_init (l : List K) (a : K) : a ≤ l.foldl max a := by
  induction l generalizing a with
  | nil => exact le_refl a
  | cons c t ih => exact le_trans (le_max_left a c) (ih (max a c))

lemma le_foldl_max_mem {l : List K} {b : K} (h : b ∈ l) (a : K) :
    b ≤ l.foldl max a := by
  induction l generalizing a with
  | nil => cases h
  | cons c t ih =>
    rcases List.mem_cons.mp h with rfl | h
    · exact le_trans (le_max_right a b) (le_foldl_max_init t (max a b))
    · exact ih h (max a c)

lemma foldl_max_mem (l : List K) (a : K) :
    l.foldl max a = a ∨ l.foldl max a ∈ l := by
  induction l generalizing a with
  | nil => exact Or.inl rfl
  | cons c t ih =>
    rcases ih (max a c) with h | h
    · rcases max_choice a c with hc | hc
      · exact Or.inl (by rw [List.foldl_cons, h, hc])
      · exact Or.inr (by rw [List.foldl_cons, h, hc]; exact List.mem_cons_self c t)
    · exact Or.inr (List.mem_cons_of_mem c h)

/-- The minimum `vmin` is determined by a lower bound that is attained. -/
lemma vmin_eq {l : List K} {m : K} (hmem : m ∈ l) (hb : ∀ b ∈ l, m ≤ b) :
    vmin l = m := by
  cases l with
  | nil => cases hmem
  | cons a t =>
    show t.foldl min a = m
    refine le_antisymm ?_ ?_
    · rcases List.mem_cons.mp hmem with rfl | h
      · exact foldl_min_le_init t m
      · exact foldl_min_le_mem h a
    · rcases foldl_min_mem t a with h | h
      · rw [h]; exact hb a (List.mem_cons_self a t)
      · exact hb _ (List.mem_cons_of_mem a h)

/-- The maximum `vmax` is determined by an upper bound that is attained. -/
lemma vmax_eq {l : List K} {m : K} (hmem : m ∈ l) (hb : ∀ b ∈ l, b ≤ m) :
    vmax l = m := by
  cases l with
  | nil => cases hmem
  | cons a t =>
    show t.foldl max a = m
    refine le_antisymm ?_ ?_
    · rcases foldl_max_mem t a with h | h
      · rw [h]; exact hb a (List.mem_cons_self a t)
      · exact hb _ (List.mem_cons_of_mem a h)
    · rcases List.mem_cons.mp hmem with rfl | h
      · exact le_foldl_max_init t m
      · exact le_foldl_max_mem h a

/-- Membership in the initial grid, characterised coordinatewise. -/
lemma mem_gridPositions {v : Vec3 K} :
    v ∈ (gridPositions : List (Vec3 K)) ↔
      (v.x = -1 ∨ v.x = 0 ∨ v.x = 1) ∧ (v.y = -1 ∨ v.y = 0 ∨ v.y = 1) ∧
        (v.z = -1 ∨ v.z = 0 ∨ v.z = 1) := by
  simp only [gridPositions, initUnits, List.mem_map, List.mem_flatMap,
    List.mem_cons, List.not_mem_nil, or_false]
  constructor
  · rintro ⟨u, ⟨x, hx, y, hy, z, hz, rfl⟩, rfl⟩
    exact ⟨hx, hy, hz⟩
  · rintro ⟨hx, hy, hz⟩
    exact ⟨⟨⟨v.x, v.y, v.z⟩, Mat3.one⟩, ⟨v.x, hx, v.y, hy, v.z, hz, rfl⟩, rfl⟩

lemma gridTriples_nodup : gridTriples.Nodup := by decide

/-- The grid positions are the casts of the integer skeleton. -/
lemma gridPositions_eq_cast :
    (gridPositions : List (Vec3 K)) =
      gridTriples.map fun t => ⟨(t.1 : K), (t.2.1 : K), (t.2.2 : K)⟩ := by
  simp [gridPositions, initUnits, gridTriples]

/-- The 27 grid positions are pairwise distinct. -/
lemma gridPositions_nodup : (gridPositions : List (Vec3 K)).Nodup := by
  rw [gridPositions_eq_cast]
  refine gridTriples_nodup.map fun t1 t2 h => ?_
  have e1 : t1.1 = t2.1 := Int.cast_injective (congrArg Vec3.x h)
  have e2 : t1.2.1 = t2.2.1 := Int.cast_injective (congrArg Vec3.y h)
  have e3 : t1.2.2 = t2.2.2 := Int.cast_injective (congrArg Vec3.z h)
  exact Prod.ext e1 (Prod.ext e2 e3)

lemma isInSection_zero (v : Vec3 K) (a : Axis) :
    isInSection v a 0 = true ↔ v.comp a < -(1 / 2) := by
  simp [isInSection]

lemma isInSection_one (v : Vec3 K) (a : Axis) :
    isInSection v a 1 = true ↔ -(1 / 2) ≤ v.comp a ∧ v.comp a ≤ 1 / 2 := by
  simp [isInSection]

lemma isInSection_two (v : Vec3 K) (a : Axis) :
    isInSection v a 2 = true ↔ 1 / 2 < v.comp a := by
  simp [isInSection]

/-- Every position is in exactly one of the three sections along an axis. -/
lemma isInSection_trichot (v : Vec3 K) (a : Axis) :
    (isInSection v a 0 = true ∧ isInSection v a 1 = false ∧
      isInSection v a 2 = false) ∨
    (isInSection v a 0 = false ∧ isInSection v a 1 = true ∧
      isInSection v a 2 = false) ∨
    (isInSection v a 0 = false ∧ isInSection v a 1 = false ∧
      isInSection v a 2 = true) := by
  rcases lt_or_le (v.comp a) (-(1 / 2)) with h | h
  · refine Or.inl ⟨?_, ?_, ?_⟩ <;> simp [isInSection] <;>
      first
        | exact h
        | intro h'
          linarith
        | linarith
  · rcases le_or_lt (v.comp a) (1 / 2) with h2 | h2
    · refine Or.inr (Or.inl ⟨?_, ?_, ?_⟩) <;> simp [isInSection] <;>
        first
          | constructor <;> linarith
          | linarith
    · refine Or.inr (Or.inr ⟨?_, ?_, ?_⟩) <;> simp [isInSection] <;>
        first
          | exact h2
          | intro h'
            linarith
          | linarith

/-- On a grid position, section membership along an axis just says that the
coordinate along the axis is `section - 1`. -/
lemma isInSection_grid_iff {v : Vec3 K}
    (hv : v ∈ (gridPositions : List (Vec3 K))) (a : Axis) (sec : Fin 3) :
    isInSection v a sec = true ↔ v.comp a = (sec : K) - 1 := by
  have hc : v.comp a = -1 ∨ v.comp a = 0 ∨ v.comp a = 1 := by
    obtain ⟨hx, hy, hz⟩ := mem_gridPositions.mp hv
    cases a
    · exact hx
    · exact hy
    · exact hz
  fin_cases sec <;> rcases hc with h | h | h <;>
    simp [isInSection, h] <;> norm_num

lemma makeRotationAxis_one (ax : Vec3 K) :
    makeRotationAxis ax 1 0 = Mat3.one := by
  simp [makeRotationAxis, Mat3.one]

lemma Mat3.one_apply (v : Vec3 K) : (Mat3.one).apply v = v := by
  simp [Mat3.one, Mat3.apply]

lemma apply_axis_x (c s : K) (v : Vec3 K) :
    (makeRotationAxis (axisVec Axis.x) c s).apply v =
      ⟨v.x, c * v.y - s * v.z, s * v.y + c * v.z⟩ := by
  simp only [makeRotationAxis, axisVec, Mat3.apply]
  congr 1 <;> ring

lemma apply_axis_y (c s : K) (v : Vec3 K) :
    (makeRotationAxis (axisVec Axis.y) c s).apply v =
      ⟨c * v.x + s * v.z, v.y, -s * v.x + c * v.z⟩ := by
  simp only [makeRotationAxis, axisVec, Mat3.apply]
  congr 1 <;> ring

lemma apply_axis_z (c s : K) (v : Vec3 K) :
    (makeRotationAxis (axisVec Axis.z) c s).apply v =
      ⟨c * v.x - s * v.y, s * v.x + c * v.y, v.z⟩ := by
  simp only [makeRotationAxis, axisVec, Mat3.apply]
  congr 1 <;> ring

/-- Rotating around a section's center does not change the coordinate along
the rotation axis. -/
lemma gridRotate_comp_eq (a : Axis) (sec : Fin 3) (c s : K) (v : Vec3 K) :
    (gridRotate a sec c s v).comp a = v.comp a := by
  unfold gridRotate
  split
  · cases a <;>
      simp [apply_axis_x, apply_axis_y, apply_axis_z, Vec3.sub, Vec3.add,
        Vec3.comp, sectionCenter]
  · rfl

/-- Section membership is invariant under `gridRotate` along the same
axis. -/
lemma isInSection_gridRotate (a : Axis) (sec sec' : Fin 3) (c s : K)
    (v : Vec3 K) :
    isInSection (gridRotate a sec c s v) a sec' = isInSection v a sec' := by
  unfold isInSection
  rw [gridRotate_comp_eq]

lemma mem_getSectionCubes {units : List (CubeUnit K)} {a : Axis}
    {sec : Fin 3} {u : CubeUnit K} :
    u ∈ getSectionCubes units a sec ↔
      u ∈ units ∧ isInSection u.pos a sec = true :=
  List.mem_filter

/-- Membership in a coordinate projection of a section of a grid-formed
cube. -/
lemma mem_section_coord {units : List (CubeUnit K)} {a : Axis} {sec : Fin 3}
    (h : (units.map CubeUnit.pos).Perm (gridPositions : List (Vec3 K)))
    (g : Vec3 K → K) (q : K) :
    q ∈ (getSectionCubes units a sec).map (fun u => g u.pos) ↔
      ∃ v ∈ (gridPositions : List (Vec3 K)),
        isInSection v a sec = true ∧ g v = q := by
  constructor
  · intro hq
    obtain ⟨u, hu, rfl⟩ := List.mem_map.mp hq
    obtain ⟨hu_mem, hu_sec⟩ := mem_getSectionCubes.mp hu
    exact ⟨u.pos, h.mem_iff.mp (List.mem_map_of_mem _ hu_mem), hu_sec, rfl⟩
  · rintro ⟨v, hv, hsec, rfl⟩
    obtain ⟨u, hu, rfl⟩ := List.mem_map.mp (h.mem_iff.mpr hv)
    exact List.mem_map_of_mem _ (mem_getSectionCubes.mpr ⟨hu, hsec⟩)

lemma secK_cases (sec : Fin 3) :
    ((sec : K) - 1 = -1 ∨ (sec : K) - 1 = 0 ∨ (sec : K) - 1 = 1) := by
  fin_cases sec <;> norm_num

/-- For a grid-formed cube, every section is nonempty and its group center
is `sectionCenter`. -/
lemma section_center_grid {units : List (CubeUnit K)}
    (h : (units.map CubeUnit.pos).Perm (gridPositions : List (Vec3 K)))
    (a : Axis) (sec : Fin 3) :
    getSectionCubes units a sec ≠ [] ∧
      calculateGroupCenter (getSectionCubes units a sec) =
        sectionCenter a sec := by
  have hscmem : (sectionCenter a sec : Vec3 K) ∈
      (gridPositions : List (Vec3 K)) := by
    cases a <;>
      refine mem_gridPositions.mpr ⟨?_, ?_, ?_⟩ <;>
        first
          | exact secK_cases sec
          | exact Or.inr (Or.inl rfl)
  have hsccomp : (sectionCenter a sec : Vec3 K).comp a = (sec : K) - 1 := by
    cases a <;> rfl
  have hscsec : isInSection (sectionCenter a sec : Vec3 K) a sec = true :=
    (isInSection_grid_iff hscmem a sec).mpr hsccomp
  have hAlongMem : ((sec : K) - 1) ∈
      (getSectionCubes units a sec).map (fun u => u.pos.comp a) :=
    (mem_section_coord h (fun v => v.comp a) ((sec : K) - 1)).mpr
      ⟨sectionCenter a sec, hscmem, hscsec, hsccomp⟩
  have hAlongAll : ∀ q ∈ (getSectionCubes units a sec).map
      (fun u => u.pos.comp a), q = (sec : K) - 1 := by
    intro q hq
    obtain ⟨v, hv, hsec, rfl⟩ :=
      (mem_section_coord h (fun v => v.comp a) q).mp hq
    exact (isInSection_grid_iff hv a sec).mp hsec
  have hNe : getSectionCubes units a sec ≠ [] := by
    intro hS
    rw [hS] at hAlongMem
    cases hAlongMem
  refine ⟨hNe, ?_⟩
  have hOffMem : ∀ g : Vec3 K → K,
      (∀ b : K, (b = -1 ∨ b = 0 ∨ b = 1) →
        ∃ v ∈ (gridPositions : List (Vec3 K)),
          isInSection v a sec = true ∧ g v = b) →
      ((-1 : K) ∈ (getSectionCubes units a sec).map (fun u => g u.pos) ∧
        (1 : K) ∈ (getSectionCubes units a sec).map (fun u => g u.pos)) := by
    intro g hbuild
    constructor
    · exact (mem_section_coord h _ _).mpr (hbuild (-1) (Or.inl rfl))
    · exact (mem_section_coord h _ _).mpr (hbuild 1 (Or.inr (Or.inr rfl)))
  have hOffBound : ∀ g : Vec3 K → K,
      (∀ v ∈ (gridPositions : List (Vec3 K)),
        g v = -1 ∨ g v = 0 ∨ g v = 1) →
      ∀ q ∈ (getSectionCubes units a sec).map (fun u => g u.pos),
        -1 ≤ q ∧ q ≤ 1 := by
    intro g hg q hq
    obtain ⟨v, hv, hsec, rfl⟩ := (mem_section_coord h _ _).mp hq
    rcases hg v hv with h' | h' | h' <;> rw [h'] <;> norm_num
  have hAlongMin : vmin ((getSectionCubes units a sec).map
      (fun u => u.pos.comp a)) = (sec : K) - 1 :=
    vmin_eq hAlongMem fun b hb => le_of_eq (hAlongAll b hb).symm
  have hAlongMax : vmax ((getSectionCubes units a sec).map
      (fun u => u.pos.comp a)) = (sec : K) - 1 :=
    vmax_eq hAlongMem fun b hb => le_of_eq (hAlongAll b hb)
  cases a with
  | x =>
    have hY := hOffBound (fun v => v.y) fun v hv => (mem_gridPositions.mp hv).2.1
    have hZ := hOffBound (fun v => v.z) fun v hv => (mem_gridPositions.mp hv).2.2
    have hYm := hOffMem (fun v => v.y) (fun b hb =>
      ⟨⟨(sec : K) - 1, b, -1⟩,
        mem_gridPositions.mpr ⟨secK_cases sec, hb, Or.inl rfl⟩,
        (isInSection_grid_iff (mem_gridPositions.mpr
          ⟨secK_cases sec, hb, Or.inl rfl⟩) _ _).mpr rfl, rfl⟩)
    have hZm := hOffMem (fun v => v.z) (fun b hb =>
      ⟨⟨(sec : K) - 1, -1, b⟩,
        mem_gridPositions.mpr ⟨secK_cases sec, Or.inl rfl, hb⟩,
        (isInSection_grid_iff (mem_gridPositions.mpr
          ⟨secK_cases sec, Or.inl rfl, hb⟩) _ _).mpr rfl, rfl⟩)
    simp only [Vec3.comp] at hAlongMin hAlongMax
    show calculateGroupCenter _ = (⟨(sec : K) - 1, 0, 0⟩ : Vec3 K)
    simp only [calculateGroupCenter]
    rw [hAlongMin, hAlongMax,
      vmin_eq (hYm.1) (fun b hb => (hY b hb).1),
      vmax_eq (hYm.2) (fun b hb => (hY b hb).2),
      vmin_eq (hZm.1) (fun b hb => (hZ b hb).1),
      vmax_eq (hZm.2) (fun b hb => (hZ b hb).2)]
    congr 1 <;> ring
  | y =>
    have hX := hOffBound (fun v => v.x) fun v hv => (mem_gridPositions.mp hv).1
    have hZ := hOffBound (fun v => v.z) fun v hv => (mem_gridPositions.mp hv).2.2
    have hXm := hOffMem (fun v => v.x) (fun b hb =>
      ⟨⟨b, (sec : K) - 1, -1⟩,
        mem_gridPositions.mpr ⟨hb, secK_cases sec, Or.inl rfl⟩,
        (isInSection_grid_iff (mem_gridPositions.mpr
          ⟨hb, secK_cases sec, Or.inl rfl⟩) _ _).mpr rfl, rfl⟩)
    have hZm := hOffMem (fun v => v.z) (fun b hb =>
      ⟨⟨-1, (sec : K) - 1, b⟩,
        mem_gridPositions.mpr ⟨Or.inl rfl, secK_cases sec, hb⟩,
        (isInSection_grid_iff (mem_gridPositions.mpr
          ⟨Or.inl rfl, secK_cases sec, hb⟩) _ _).mpr rfl, rfl⟩)
    simp only [Vec3.comp] at hAlongMin hAlongMax
    show calculateGroupCenter _ = (⟨0, (sec : K) - 1, 0⟩ : Vec3 K)
    simp only [calculateGroupCenter]
    rw [hAlongMin, hAlongMax,
      vmin_eq (hXm.1) (fun b hb => (hX b hb).1),
      vmax_eq (hXm.2) (fun b hb => (hX b hb).2),
      vmin_eq (hZm.1) (fun b hb => (hZ b hb).1),
      vmax_eq (hZm.2) (fun b hb => (hZ b hb).2)]
    congr 1 <;> ring
  | z =>
    have hX := hOffBound (fun v => v.x) fun v hv => (mem_gridPositions.mp hv).1
    have hY := hOffBound (fun v => v.y) fun v hv => (mem_gridPositions.mp hv).2.1
    have hXm := hOffMem (fun v => v.x) (fun b hb =>
      ⟨⟨b, -1, (sec : K) - 1⟩,
        mem_gridPositions.mpr ⟨hb, Or.inl rfl, secK_cases sec⟩,
        (isInSection_grid_iff (mem_gridPositions.mpr
          ⟨hb, Or.inl rfl, secK_cases sec⟩) _ _).mpr rfl, rfl⟩)
    have hYm := hOffMem (fun v => v.y) (fun b hb =>
      ⟨⟨-1, b, (sec : K) - 1⟩,
        mem_gridPositions.mpr ⟨Or.inl rfl, hb, secK_cases sec⟩,
        (isInSection_grid_iff (mem_gridPositions.mpr
          ⟨Or.inl rfl, hb, secK_cases sec⟩) _ _).mpr rfl, rfl⟩)
    simp only [Vec3.comp] at hAlongMin hAlongMax
    show calculateGroupCenter _ = (⟨0, 0, (sec : K) - 1⟩ : Vec3 K)
    simp only [calculateGroupCenter]
    rw [hAlongMin, hAlongMax,
      vmin_eq (hXm.1) (fun b hb => (hX b hb).1),
      vmax_eq (hXm.2) (fun b hb => (hX b hb).2),
      vmin_eq (hYm.1) (fun b hb => (hY b hb).1),
      vmax_eq (hYm.2) (fun b hb => (hY b hb).2)]
    congr 1 <;> ring

/-- Position-level form of `applyRotationCS` once the selected section is
known to be nonempty with group center `sectionCenter`. -/
lemma applyRotationCS_map_pos {units : List (CubeUnit K)} {a : Axis}
    {sec : Fin 3}
    (hne : getSectionCubes units a sec ≠ [])
    (hcenter : calculateGroupCenter (getSectionCubes units a sec) =
      sectionCenter a sec)
    (c s : K) :
    (applyRotationCS units a sec c s).map CubeUnit.pos =
      (units.map CubeUnit.pos).map (gridRotate a sec c s) := by
  unfold applyRotationCS
  rw [if_neg (by simpa using hne), hcenter, List.map_map, List.map_map]
  congr 1
  funext u
  by_cases hu : isInSection u.pos a sec <;>
    simp [Function.comp, hu, rotateUnitAroundPivot, gridRotate]

/-- For a grid-formed cube the bounding box of the whole assembly is
centered at the origin. -/
lemma whole_center_grid {units : List (CubeUnit K)}
    (h : (units.map CubeUnit.pos).Perm (gridPositions : List (Vec3 K))) :
    calculateGroupCenter units = (⟨0, 0, 0⟩ : Vec3 K) := by
  have hmm : ∀ (g : Vec3 K → K) (q : K),
      q ∈ units.map (fun u => g u.pos) ↔
        ∃ v ∈ (gridPositions : List (Vec3 K)), g v = q := by
    intro g q
    constructor
    · intro hq
      obtain ⟨u, hu, rfl⟩ := List.mem_map.mp hq
      exact ⟨u.pos, h.mem_iff.mp (List.mem_map_of_mem _ hu), rfl⟩
    · rintro ⟨v, hv, rfl⟩
      obtain ⟨u, hu, rfl⟩ := List.mem_map.mp (h.mem_iff.mpr hv)
      exact List.mem_map_of_mem _ hu
  have key : ∀ g : Vec3 K → K,
      (∀ v ∈ (gridPositions : List (Vec3 K)), g v = -1 ∨ g v = 0 ∨ g v = 1) →
      (∃ v1 ∈ (gridPositions : List (Vec3 K)), g v1 = -1) →
      (∃ v2 ∈ (gridPositions : List (Vec3 K)), g v2 = 1) →
      vmin (units.map fun u => g u.pos) = -1 ∧
        vmax (units.map fun u => g u.pos) = 1 := by
    rintro g hball ⟨v1, hv1, hg1⟩ ⟨v2, hv2, hg2⟩
    have hbound : ∀ b ∈ units.map (fun u => g u.pos), -1 ≤ b ∧ b ≤ 1 := by
      intro b hb
      obtain ⟨v, hv, rfl⟩ := (hmm g b).mp hb
      rcases hball v hv with h' | h' | h' <;> rw [h'] <;> norm_num
    exact ⟨vmin_eq ((hmm g (-1)).mpr ⟨v1, hv1, hg1⟩)
        (fun b hb => (hbound b hb).1),
      vmax_eq ((hmm g 1).mpr ⟨v2, hv2, hg2⟩)
        (fun b hb => (hbound b hb).2)⟩
  have hx := key (fun v => v.x) (fun v hv => (mem_gridPositions.mp hv).1)
    ⟨⟨-1, -1, -1⟩, mem_gridPositions.mpr
      ⟨Or.inl rfl, Or.inl rfl, Or.inl rfl⟩, rfl⟩
    ⟨⟨1, -1, -1⟩, mem_gridPositions.mpr
      ⟨Or.inr (Or.inr rfl), Or.inl rfl, Or.inl rfl⟩, rfl⟩
  have hy := key (fun v => v.y) (fun v hv => (mem_gridPositions.mp hv).2.1)
    ⟨⟨-1, -1, -1⟩, mem_gridPositions.mpr
      ⟨Or.inl rfl, Or.inl rfl, Or.inl rfl⟩, rfl⟩
    ⟨⟨-1, 1, -1⟩, mem_gridPositions.mpr
      ⟨Or.inl rfl, Or.inr (Or.inr rfl), Or.inl rfl⟩, rfl⟩
  have hz := key (fun v => v.z) (fun v hv => (mem_gridPositions.mp hv).2.2)
    ⟨⟨-1, -1, -1⟩, mem_gridPositions.mpr
      ⟨Or.inl rfl, Or.inl rfl, Or.inl rfl⟩, rfl⟩
    ⟨⟨-1, -1, 1⟩, mem_gridPositions.mpr
      ⟨Or.inl rfl, Or.inl rfl, Or.inr (Or.inr rfl)⟩, rfl⟩
  simp only [calculateGroupCenter]
  rw [hx.1, hx.2, hy.1, hy.2, hz.1, hz.2]
  congr 1 <;> ring

/-- Position-level form of `rotateEntireCubeCS` once the assembly center is
known to be the origin. -/
lemma rotateEntireCubeCS_map_pos {units : List (CubeUnit K)}
    (hc : calculateGroupCenter units = (⟨0, 0, 0⟩ : Vec3 K)) (a : Axis)
    (c s : K) :
    (rotateEntireCubeCS units a c s).map CubeUnit.pos =
      (units.map CubeUnit.pos).map (wholeGridRotate a c s) := by
  unfold rotateEntireCubeCS rotateCubesAroundPivot
  rw [hc, List.map_map, List.map_map]
  congr 1

lemma gridRotate_out (a : Axis) (sec : Fin 3) (c s : K) (v : Vec3 K)
    (hout : ¬ isInSection v a sec = true) :
    gridRotate a sec c s v = v := by
  unfold gridRotate
  rw [if_neg hout]

lemma gridRotate_x_in (sec : Fin 3) (c s : K) (v : Vec3 K)
    (hin : isInSection v Axis.x sec = true) :
    gridRotate Axis.x sec c s v =
      ⟨v.x, c * v.y - s * v.z, s * v.y + c * v.z⟩ := by
  unfold gridRotate
  rw [if_pos hin, apply_axis_x]
  simp only [Vec3.sub, Vec3.add, sectionCenter]
  congr 1 <;> ring

lemma gridRotate_y_in (sec : Fin 3) (c s : K) (v : Vec3 K)
    (hin : isInSection v Axis.y sec = true) :
    gridRotate Axis.y sec c s v =
      ⟨c * v.x + s * v.z, v.y, -s * v.x + c * v.z⟩ := by
  unfold gridRotate
  rw [if_pos hin, apply_axis_y]
  simp only [Vec3.sub, Vec3.add, sectionCenter]
  congr 1 <;> ring

lemma gridRotate_z_in (sec : Fin 3) (c s : K) (v : Vec3 K)
    (hin : isInSection v Axis.z sec = true) :
    gridRotate Axis.z sec c s v =
      ⟨c * v.x - s * v.y, s * v.x + c * v.y, v.z⟩ := by
  unfold gridRotate
  rw [if_pos hin, apply_axis_z]
  simp only [Vec3.sub, Vec3.add, sectionCenter]
  congr 1 <;> ring

/-- A quarter-turn (cosine `0`, sine `±1`) of a section maps grid positions
to grid positions. -/
lemma gridRotate_mem_grid (a : Axis) (sec : Fin 3) {ε : K}
    (hε : ε = 1 ∨ ε = -1) {v : Vec3 K}
    (hv : v ∈ (gridPositions : List (Vec3 K))) :
    gridRotate a sec 0 ε v ∈ (gridPositions : List (Vec3 K)) := by
  by_cases hin : isInSection v a sec = true
  · obtain ⟨hx, hy, hz⟩ := mem_gridPositions.mp hv
    cases a with
    | x =>
      rw [gridRotate_x_in sec 0 ε v hin]
      refine mem_gridPositions.mpr ⟨hx, ?_, ?_⟩
      · rcases hε with rfl | rfl <;> rcases hz with h | h | h <;> norm_num [h]
      · rcases hε with rfl | rfl <;> rcases hy with h | h | h <;> norm_num [h]
    | y =>
      rw [gridRotate_y_in sec 0 ε v hin]
      refine mem_gridPositions.mpr ⟨?_, hy, ?_⟩
      · rcases hε with rfl | rfl <;> rcases hz with h | h | h <;> norm_num [h]
      · rcases hε with rfl | rfl <;> rcases hx with h | h | h <;> norm_num [h]
    | z =>
      rw [gridRotate_z_in sec 0 ε v hin]
      refine mem_gridPositions.mpr ⟨?_, ?_, hz⟩
      · rcases hε with rfl | rfl <;> rcases hy with h | h | h <;> norm_num [h]
      · rcases hε with rfl | rfl <;> rcases hx with h | h | h <;> norm_num [h]
  · rw [gridRotate_out a sec 0 ε v hin]
    exact hv

/-- A quarter-turn of a section is undone by the opposite quarter-turn. -/
lemma gridRotate_eps_inv (a : Axis) (sec : Fin 3) {ε : K}
    (hε : ε = 1 ∨ ε = -1) (v : Vec3 K) :
    gridRotate a sec 0 (-ε) (gridRotate a sec 0 ε v) = v := by
  by_cases hin : isInSection v a sec = true
  · have hin2 : isInSection (gridRotate a sec 0 ε v) a sec = true := by
      rw [isInSection_gridRotate]
      exact hin
    rcases hε with rfl | rfl <;> cases a <;>
      [rw [gridRotate_x_in sec 0 1 v hin] at hin2 ⊢;
       rw [gridRotate_y_in sec 0 1 v hin] at hin2 ⊢;
       rw [gridRotate_z_in sec 0 1 v hin] at hin2 ⊢;
       rw [gridRotate_x_in sec 0 (-1) v hin] at hin2 ⊢;
       rw [gridRotate_y_in sec 0 (-1) v hin] at hin2 ⊢;
       rw [gridRotate_z_in sec 0 (-1) v hin] at hin2 ⊢] <;>
      [rw [gridRotate_x_in sec 0 (-1) _ hin2];
       rw [gridRotate_y_in sec 0 (-1) _ hin2];
       rw [gridRotate_z_in sec 0 (-1) _ hin2];
       rw [gridRotate_x_in sec 0 (-(-1)) _ hin2];
       rw [gridRotate_y_in sec 0 (-(-1)) _ hin2];
       rw [gridRotate_z_in sec 0 (-(-1)) _ hin2]] <;>
      congr 1 <;> ring
  · have hin2 : ¬ isInSection (gridRotate a sec 0 ε v) a sec = true := by
      rw [isInSection_gridRotate]
      exact hin
    rw [gridRotate_out a sec 0 (-ε) _ hin2, gridRotate_out a sec 0 ε v hin]

/-- A quarter-turn of a section permutes the 27 grid positions. -/
lemma gridRotate_eps_perm (a : Axis) (sec : Fin 3) {ε : K}
    (hε : ε = 1 ∨ ε = -1) :
    ((gridPositions : List (Vec3 K)).map (gridRotate a sec 0 ε)).Perm
      gridPositions := by
  have hε' : -ε = 1 ∨ -ε = -1 := by
    rcases hε with rfl | rfl
    · exact Or.inr (by norm_num)
    · exact Or.inl (by norm_num)
  have hinj : ∀ x ∈ (gridPositions : List (Vec3 K)),
      ∀ y ∈ (gridPositions : List (Vec3 K)),
      gridRotate a sec 0 ε x = gridRotate a sec 0 ε y → x = y := by
    intro x _ y _ hxy
    have h2 := congrArg (gridRotate a sec 0 (-ε)) hxy
    rwa [gridRotate_eps_inv a sec hε x, gridRotate_eps_inv a sec hε y] at h2
  refine List.perm_of_nodup_nodup_toFinset_eq
    (gridPositions_nodup.map_on hinj) gridPositions_nodup ?_
  ext w
  simp only [List.mem_toFinset, List.mem_map]
  constructor
  · rintro ⟨v, hv, rfl⟩
    exact gridRotate_mem_grid a sec hε hv
  · intro hw
    refine ⟨gridRotate a sec 0 (-ε) w, gridRotate_mem_grid a sec hε' hw, ?_⟩
    have h2 := gridRotate_eps_inv a sec hε' w
    rwa [neg_neg] at h2

lemma gridRotate_one_zero (a : Axis) (sec : Fin 3) (v : Vec3 K) :
    gridRotate a sec 1 0 v = v := by
  unfold gridRotate
  split
  · rw [makeRotationAxis_one, Mat3.one_apply]
    simp [Vec3.sub, Vec3.add]
  · rfl

lemma wholeGridRotate_x (c s : K) (v : Vec3 K) :
    wholeGridRotate Axis.x c s v =
      ⟨v.x, c * v.y - s * v.z, s * v.y + c * v.z⟩ := by
  unfold wholeGridRotate
  rw [apply_axis_x]
  simp only [Vec3.sub, Vec3.add]
  congr 1 <;> ring

lemma wholeGridRotate_y (c s : K) (v : Vec3 K) :
    wholeGridRotate Axis.y c s v =
      ⟨c * v.x + s * v.z, v.y, -s * v.x + c * v.z⟩ := by
  unfold wholeGridRotate
  rw [apply_axis_y]
  simp only [Vec3.sub, Vec3.add]
  congr 1 <;> ring

lemma wholeGridRotate_z (c s : K) (v : Vec3 K) :
    wholeGridRotate Axis.z c s v =
      ⟨c * v.x - s * v.y, s * v.x + c * v.y, v.z⟩ := by
  unfold wholeGridRotate
  rw [apply_axis_z]
  simp only [Vec3.sub, Vec3.add]
  congr 1 <;> ring

/-- A quarter-turn of the whole cube maps grid positions to grid
positions. -/
lemma wholeGridRotate_mem_grid (a : Axis) {ε : K} (hε : ε = 1 ∨ ε = -1)
    {v : Vec3 K} (hv : v ∈ (gridPositions : List (Vec3 K))) :
    wholeGridRotate a 0 ε v ∈ (gridPositions : List (Vec3 K)) := by
  obtain ⟨hx, hy, hz⟩ := mem_gridPositions.mp hv
  cases a with
  | x =>
    rw [wholeGridRotate_x]
    refine mem_gridPositions.mpr ⟨hx, ?_, ?_⟩
    · rcases hε with rfl | rfl <;> rcases hz with h | h | h <;> norm_num [h]
    · rcases hε with rfl | rfl <;> rcases hy with h | h | h <;> norm_num [h]
  | y =>
    rw [wholeGridRotate_y]
    refine mem_gridPositions.mpr ⟨?_, hy, ?_⟩
    · rcases hε with rfl | rfl <;> rcases hz with h | h | h <;> norm_num [h]
    · rcases hε with rfl | rfl <;> rcases hx with h | h | h <;> norm_num [h]
  | z =>
    rw [wholeGridRotate_z]
    refine mem_gridPositions.mpr ⟨?_, ?_, hz⟩
    · rcases hε with rfl | rfl <;> rcases hy with h | h | h <;> norm_num [h]
    · rcases hε with rfl | rfl <;> rcases hx with h | h | h <;> norm_num [h]

/-- A whole-cube quarter-turn is undone by the opposite quarter-turn. -/
lemma wholeGridRotate_eps_inv (a : Axis) {ε : K} (hε : ε = 1 ∨ ε = -1)
    (v : Vec3 K) :
    wholeGridRotate a 0 (-ε) (wholeGridRotate a 0 ε v) = v := by
  rcases hε with rfl | rfl <;> cases a <;>
    simp only [wholeGridRotate_x, wholeGridRotate_y, wholeGridRotate_z] <;>
    congr 1 <;> ring

/-- A whole-cube quarter-turn permutes the 27 grid positions. -/
lemma wholeGridRotate_eps_perm (a : Axis) {ε : K} (hε : ε = 1 ∨ ε = -1) :
    ((gridPositions : List (Vec3 K)).map (wholeGridRotate a 0 ε)).Perm
      gridPositions := by
  have hε' : -ε = 1 ∨ -ε = -1 := by
    rcases hε with rfl | rfl
    · exact Or.inr (by norm_num)
    · exact Or.inl (by norm_num)
  have hinj : ∀ x ∈ (gridPositions : List (Vec3 K)),
      ∀ y ∈ (gridPositions : List (Vec3 K)),
      wholeGridRotate a 0 ε x = wholeGridRotate a 0 ε y → x = y := by
    intro x _ y _ hxy
    have h2 := congrArg (wholeGridRotate a 0 (-ε)) hxy
    rwa [wholeGridRotate_eps_inv a hε x, wholeGridRotate_eps_inv a hε y] at h2
  refine List.perm_of_nodup_nodup_toFinset_eq
    (gridPositions_nodup.map_on hinj) gridPositions_nodup ?_
  ext w
  simp only [List.mem_toFinset, List.mem_map]
  constructor
  · rintro ⟨v, hv, rfl⟩
    exact wholeGridRotate_mem_grid a hε hv
  · intro hw
    refine ⟨wholeGridRotate a 0 (-ε) w, wholeGridRotate_mem_grid a hε' hw, ?_⟩
    have h2 := wholeGridRotate_eps_inv a hε' w
    rwa [neg_neg] at h2

lemma wholeGridRotate_one_zero (a : Axis) (v : Vec3 K) :
    wholeGridRotate a 1 0 v = v := by
  unfold wholeGridRotate
  rw [makeRotationAxis_one, Mat3.one_apply]
  simp [Vec3.sub, Vec3.add]

lemma sectionCenter_mem_grid (a : Axis) (sec : Fin 3) :
    (sectionCenter a sec : Vec3 K) ∈ (gridPositions : List (Vec3 K)) := by
  cases a <;>
    refine mem_gridPositions.mpr ⟨?_, ?_, ?_⟩ <;>
      first
        | exact secK_cases sec
        | exact Or.inr (Or.inl rfl)

lemma sectionCenter_comp (a : Axis) (sec : Fin 3) :
    (sectionCenter a sec : Vec3 K).comp a = (sec : K) - 1 := by
  cases a <;> rfl

lemma sectionCenter_inSection (a : Axis) (sec : Fin 3) :
    isInSection (sectionCenter a sec : Vec3 K) a sec = true :=
  (isInSection_grid_iff (sectionCenter_mem_grid a sec) a sec).mpr
    (sectionCenter_comp a sec)

lemma mul_pm_bound {b : K} (p : K) (hb : b = -1 ∨ b = 0 ∨ b = 1) :
    -|p| ≤ p * b ∧ p * b ≤ |p| := by
  rcases hb with rfl | rfl | rfl <;> constructor <;>
    nlinarith [le_abs_self p, neg_abs_le p, abs_nonneg p]

lemma pick_neg_val (p : K) : p * (if 0 ≤ p then (-1 : K) else 1) = -|p| := by
  by_cases h : 0 ≤ p
  · rw [if_pos h, abs_of_nonneg h]
    ring
  · rw [if_neg h, abs_of_neg (lt_of_not_le h)]
    ring

lemma pick_pos_val (p : K) : p * (if 0 ≤ p then (1 : K) else -1) = |p| := by
  by_cases h : 0 ≤ p
  · rw [if_pos h, abs_of_nonneg h]
    ring
  · rw [if_neg h, abs_of_neg (lt_of_not_le h)]
    ring

lemma pick_neg_mem (p : K) :
    (if 0 ≤ p then (-1 : K) else 1) = -1 ∨
      (if 0 ≤ p then (-1 : K) else 1) = 0 ∨
      (if 0 ≤ p then (-1 : K) else 1) = 1 := by
  by_cases h : 0 ≤ p <;> simp [h]

lemma pick_pos_mem (p : K) :
    (if 0 ≤ p then (1 : K) else -1) = -1 ∨
      (if 0 ≤ p then (1 : K) else -1) = 0 ∨
      (if 0 ≤ p then (1 : K) else -1) = 1 := by
  by_cases h : 0 ≤ p <;> simp [h]

/-- Minimum and maximum of a list whose members are exactly the values
`p1 * b1 + p2 * b2` with `b1, b2` ranging over `{-1, 0, 1}`. -/
lemma combo_minmax {lcoords : List K} {p1 p2 : K}
    (hchar : ∀ q : K, q ∈ lcoords ↔ ∃ b1 b2 : K,
      (b1 = -1 ∨ b1 = 0 ∨ b1 = 1) ∧ (b2 = -1 ∨ b2 = 0 ∨ b2 = 1) ∧
        p1 * b1 + p2 * b2 = q) :
    vmin lcoords = -(|p1| + |p2|) ∧ vmax lcoords = |p1| + |p2| := by
  have hbound : ∀ b ∈ lcoords, -(|p1| + |p2|) ≤ b ∧ b ≤ |p1| + |p2| := by
    intro b hb
    obtain ⟨b1, b2, h1, h2, rfl⟩ := (hchar b).mp hb
    have e1 := mul_pm_bound p1 h1
    have e2 := mul_pm_bound p2 h2
    constructor <;> linarith [e1.1, e1.2, e2.1, e2.2]
  constructor
  · apply vmin_eq ((hchar _).mpr
      ⟨if 0 ≤ p1 then -1 else 1, if 0 ≤ p2 then -1 else 1,
        pick_neg_mem p1, pick_neg_mem p2, by
          rw [pick_neg_val p1, pick_neg_val p2]
          ring⟩)
    exact fun b hb => (hbound b hb).1
  · apply vmax_eq ((hchar _).mpr
      ⟨if 0 ≤ p1 then 1 else -1, if 0 ≤ p2 then 1 else -1,
        pick_pos_mem p1, pick_pos_mem p2, by
          rw [pick_pos_val p1, pick_pos_val p2]⟩)
    exact fun b hb => (hbound b hb).2

/-- After rotating a section of a grid-formed cube by an arbitrary angle,
the reselected section is still nonempty and its group center is still
`sectionCenter`. -/
lemma mid_section_center {units : List (CubeUnit K)}
    (h : (units.map CubeUnit.pos).Perm (gridPositions : List (Vec3 K)))
    (a : Axis) (sec : Fin 3) (c s : K) :
    getSectionCubes (applyRotationCS units a sec c s) a sec ≠ [] ∧
      calculateGroupCenter
        (getSectionCubes (applyRotationCS units a sec c s) a sec) =
        sectionCenter a sec := by
  obtain ⟨hne, hcen⟩ := section_center_grid h a sec
  have hM : (applyRotationCS units a sec c s).map CubeUnit.pos =
      (units.map CubeUnit.pos).map (gridRotate a sec c s) :=
    applyRotationCS_map_pos hne hcen c s
  have hmm : ∀ (g : Vec3 K → K) (q : K),
      q ∈ (getSectionCubes (applyRotationCS units a sec c s) a sec).map
          (fun u => g u.pos) ↔
        ∃ v ∈ (gridPositions : List (Vec3 K)),
          isInSection v a sec = true ∧ g (gridRotate a sec c s v) = q := by
    intro g q
    constructor
    · intro hq
      obtain ⟨u, hu, rfl⟩ := List.mem_map.mp hq
      obtain ⟨huM, husec⟩ := mem_getSectionCubes.mp hu
      have hupos : u.pos ∈
          (units.map CubeUnit.pos).map (gridRotate a sec c s) := by
        rw [← hM]
        exact List.mem_map_of_mem _ huM
      obtain ⟨v, hv, heq⟩ := List.mem_map.mp hupos
      have hvsec : isInSection v a sec = true := by
        rw [← isInSection_gridRotate a sec sec c s v, heq]
        exact husec
      exact ⟨v, h.mem_iff.mp hv, hvsec, by rw [heq]⟩
    · rintro ⟨v, hv, hsec, rfl⟩
      have hvmem : gridRotate a sec c s v ∈
          (applyRotationCS units a sec c s).map CubeUnit.pos := by
        rw [hM]
        exact List.mem_map_of_mem _ (h.mem_iff.mpr hv)
      obtain ⟨u, hu, hequ⟩ := List.mem_map.mp hvmem
      have husec : isInSection u.pos a sec = true := by
        rw [hequ, isInSection_gridRotate]
        exact hsec
      refine List.mem_map.mpr ⟨u, mem_getSectionCubes.mpr ⟨hu, husec⟩, ?_⟩
      show g u.pos = g (gridRotate a sec c s v)
      rw [hequ]
  have hAlongMem : ((sec : K) - 1) ∈
      (getSectionCubes (applyRotationCS units a sec c s) a sec).map
        (fun u => u.pos.comp a) :=
    (hmm (fun v => v.comp a) _).mpr
      ⟨sectionCenter a sec, sectionCenter_mem_grid a sec,
        sectionCenter_inSection a sec, by
          rw [gridRotate_comp_eq]
          exact sectionCenter_comp a sec⟩
  have hAlongAll : ∀ q ∈ (getSectionCubes (applyRotationCS units a sec c s)
      a sec).map (fun u => u.pos.comp a), q = (sec : K) - 1 := by
    intro q hq
    obtain ⟨v, hv, hsec, rfl⟩ := (hmm (fun v => v.comp a) q).mp hq
    rw [gridRotate_comp_eq]
    exact (isInSection_grid_iff hv a sec).mp hsec
  have hNe : getSectionCubes (applyRotationCS units a sec c s) a sec ≠ [] := by
    intro hS
    rw [hS] at hAlongMem
    cases hAlongMem
  refine ⟨hNe, ?_⟩
  have hAlongMin : vmin ((getSectionCubes (applyRotationCS units a sec c s)
      a sec).map (fun u => u.pos.comp a)) = (sec : K) - 1 :=
    vmin_eq hAlongMem fun b hb => le_of_eq (hAlongAll b hb).symm
  have hAlongMax : vmax ((getSectionCubes (applyRotationCS units a sec c s)
      a sec).map (fun u => u.pos.comp a)) = (sec : K) - 1 :=
    vmax_eq hAlongMem fun b hb => le_of_eq (hAlongAll b hb)
  cases a with
  | x =>
    have hYchar : ∀ q : K, q ∈ (getSectionCubes
        (applyRotationCS units Axis.x sec c s) Axis.x sec).map
          (fun u => u.pos.y) ↔
        ∃ b1 b2 : K, (b1 = -1 ∨ b1 = 0 ∨ b1 = 1) ∧
          (b2 = -1 ∨ b2 = 0 ∨ b2 = 1) ∧ c * b1 + (-s) * b2 = q := by
      intro q
      rw [hmm (fun v => v.y) q]
      constructor
      · rintro ⟨v, hv, hsec, rfl⟩
        obtain ⟨hx, hy, hz⟩ := mem_gridPositions.mp hv
        rw [gridRotate_x_in sec c s v hsec]
        exact ⟨v.y, v.z, hy, hz, by
          show c * v.y + -s * v.z = c * v.y - s * v.z
          ring⟩
      · rintro ⟨b1, b2, h1, h2, rfl⟩
        have hwmem : (⟨(sec : K) - 1, b1, b2⟩ : Vec3 K) ∈
            (gridPositions : List (Vec3 K)) :=
          mem_gridPositions.mpr ⟨secK_cases sec, h1, h2⟩
        have hwsec : isInSection (⟨(sec : K) - 1, b1, b2⟩ : Vec3 K)
            Axis.x sec = true :=
          (isInSection_grid_iff hwmem _ _).mpr rfl
        refine ⟨⟨(sec : K) - 1, b1, b2⟩, hwmem, hwsec, ?_⟩
        rw [gridRotate_x_in sec c s _ hwsec]
        show c * b1 - s * b2 = c * b1 + -s * b2
        ring
    have hZchar : ∀ q : K, q ∈ (getSectionCubes
        (applyRotationCS units Axis.x sec c s) Axis.x sec).map
          (fun u => u.pos.z) ↔
        ∃ b1 b2 : K, (b1 = -1 ∨ b1 = 0 ∨ b1 = 1) ∧
          (b2 = -1 ∨ b2 = 0 ∨ b2 = 1) ∧ s * b1 + c * b2 = q := by
      intro q
      rw [hmm (fun v => v.z) q]
      constructor
      · rintro ⟨v, hv, hsec, rfl⟩
        obtain ⟨hx, hy, hz⟩ := mem_gridPositions.mp hv
        rw [gridRotate_x_in sec c s v hsec]
        exact ⟨v.y, v.z, hy, hz, rfl⟩
      · rintro ⟨b1, b2, h1, h2, rfl⟩
        have hwmem : (⟨(sec : K) - 1, b1, b2⟩ : Vec3 K) ∈
            (gridPositions : List (Vec3 K)) :=
          mem_gridPositions.mpr ⟨secK_cases sec, h1, h2⟩
        have hwsec : isInSection (⟨(sec : K) - 1, b1, b2⟩ : Vec3 K)
            Axis.x sec = true :=
          (isInSection_grid_iff hwmem _ _).mpr rfl
        exact ⟨⟨(sec : K) - 1, b1, b2⟩, hwmem, hwsec, by
          rw [gridRotate_x_in sec c s _ hwsec]⟩
    obtain ⟨hYmin, hYmax⟩ := combo_minmax hYchar
    obtain ⟨hZmin, hZmax⟩ := combo_minmax hZchar
    simp only [Vec3.comp] at hAlongMin hAlongMax
    show calculateGroupCenter _ = (⟨(sec : K) - 1, 0, 0⟩ : Vec3 K)
    simp only [calculateGroupCenter]
    rw [hAlongMin, hAlongMax, hYmin, hYmax, hZmin, hZmax]
    congr 1 <;> ring
  | y =>
    have hXchar : ∀ q : K, q ∈ (getSectionCubes
        (applyRotationCS units Axis.y sec c s) Axis.y sec).map
          (fun u => u.pos.x) ↔
        ∃ b1 b2 : K, (b1 = -1 ∨ b1 = 0 ∨ b1 = 1) ∧
          (b2 = -1 ∨ b2 = 0 ∨ b2 = 1) ∧ c * b1 + s * b2 = q := by
      intro q
      rw [hmm (fun v => v.x) q]
      constructor
      · rintro ⟨v, hv, hsec, rfl⟩
        obtain ⟨hx, hy, hz⟩ := mem_gridPositions.mp hv
        rw [gridRotate_y_in sec c s v hsec]
        exact ⟨v.x, v.z, hx, hz, rfl⟩
      · rintro ⟨b1, b2, h1, h2, rfl⟩
        have hwmem : (⟨b1, (sec : K) - 1, b2⟩ : Vec3 K) ∈
            (gridPositions : List (Vec3 K)) :=
          mem_gridPositions.mpr ⟨h1, secK_cases sec, h2⟩
        have hwsec : isInSection (⟨b1, (sec : K) - 1, b2⟩ : Vec3 K)
            Axis.y sec = true :=
          (isInSection_grid_iff hwmem _ _).mpr rfl
        exact ⟨⟨b1, (sec : K) - 1, b2⟩, hwmem, hwsec, by
          rw [gridRotate_y_in sec c s _ hwsec]⟩
    have hZchar : ∀ q : K, q ∈ (getSectionCubes
        (applyRotationCS units Axis.y sec c s) Axis.y sec).map
          (fun u => u.pos.z) ↔
        ∃ b1 b2 : K, (b1 = -1 ∨ b1 = 0 ∨ b1 = 1) ∧
          (b2 = -1 ∨ b2 = 0 ∨ b2 = 1) ∧ (-s) * b1 + c * b2 = q := by
      intro q
      rw [hmm (fun v => v.z) q]
      constructor
      · rintro ⟨v, hv, hsec, rfl⟩
        obtain ⟨hx, hy, hz⟩ := mem_gridPositions.mp hv
        rw [gridRotate_y_in sec c s v hsec]
        exact ⟨v.x, v.z, hx, hz, by
          show -s * v.x + c * v.z = -s * v.x + c * v.z
          rfl⟩
      · rintro ⟨b1, b2, h1, h2, rfl⟩
        have hwmem : (⟨b1, (sec : K) - 1, b2⟩ : Vec3 K) ∈
            (gridPositions : List (Vec3 K)) :=
          mem_gridPositions.mpr ⟨h1, secK_cases sec, h2⟩
        have hwsec : isInSection (⟨b1, (sec : K) - 1, b2⟩ : Vec3 K)
            Axis.y sec = true :=
          (isInSection_grid_iff hwmem _ _).mpr rfl
        exact ⟨⟨b1, (sec : K) - 1, b2⟩, hwmem, hwsec, by
          rw [gridRotate_y_in sec c s _ hwsec]⟩
    obtain ⟨hXmin, hXmax⟩ := combo_minmax hXchar
    obtain ⟨hZmin, hZmax⟩ := combo_minmax hZchar
    simp only [Vec3.comp] at hAlongMin hAlongMax
    show calculateGroupCenter _ = (⟨0, (sec : K) - 1, 0⟩ : Vec3 K)
    simp only [calculateGroupCenter]
    rw [hAlongMin, hAlongMax, hXmin, hXmax, hZmin, hZmax]
    congr 1 <;> ring
  | z =>
    have hXchar : ∀ q : K, q ∈ (getSectionCubes
        (applyRotationCS units Axis.z sec c s) Axis.z sec).map
          (fun u => u.pos.x) ↔
        ∃ b1 b2 : K, (b1 = -1 ∨ b1 = 0 ∨ b1 = 1) ∧
          (b2 = -1 ∨ b2 = 0 ∨ b2 = 1) ∧ c * b1 + (-s) * b2 = q := by
      intro q
      rw [hmm (fun v => v.x) q]
      constructor
      · rintro ⟨v, hv, hsec, rfl⟩
        obtain ⟨hx, hy, hz⟩ := mem_gridPositions.mp hv
        rw [gridRotate_z_in sec c s v hsec]
        exact ⟨v.x, v.y, hx, hy, by
          show c * v.x + -s * v.y = c * v.x - s * v.y
          ring⟩
      · rintro ⟨b1, b2, h1, h2, rfl⟩
        have hwmem : (⟨b1, b2, (sec : K) - 1⟩ : Vec3 K) ∈
            (gridPositions : List (Vec3 K)) :=
          mem_gridPositions.mpr ⟨h1, h2, secK_cases sec⟩
        have hwsec : isInSection (⟨b1, b2, (sec : K) - 1⟩ : Vec3 K)
            Axis.z sec = true :=
          (isInSection_grid_iff hwmem _ _).mpr rfl
        refine ⟨⟨b1, b2, (sec : K) - 1⟩, hwmem, hwsec, ?_⟩
        rw [gridRotate_z_in sec c s _ hwsec]
        show c * b1 - s * b2 = c * b1 + -s * b2
        ring
    have hYchar : ∀ q : K, q ∈ (getSectionCubes
        (applyRotationCS units Axis.z sec c s) Axis.z sec).map
          (fun u => u.pos.y) ↔
        ∃ b1 b2 : K, (b1 = -1 ∨ b1 = 0 ∨ b1 = 1) ∧
          (b2 = -1 ∨ b2 = 0 ∨ b2 = 1) ∧ s * b1 + c * b2 = q := by
      intro q
      rw [hmm (fun v => v.y) q]
      constructor
      · rintro ⟨v, hv, hsec, rfl⟩
        obtain ⟨hx, hy, hz⟩ := mem_gridPositions.mp hv
        rw [gridRotate_z_in sec c s v hsec]
        exact ⟨v.x, v.y, hx, hy, rfl⟩
      · rintro ⟨b1, b2, h1, h2, rfl⟩
        have hwmem : (⟨b1, b2, (sec : K) - 1⟩ : Vec3 K) ∈
            (gridPositions : List (Vec3 K)) :=
          mem_gridPositions.mpr ⟨h1, h2, secK_cases sec⟩
        have hwsec : isInSection (⟨b1, b2, (sec : K) - 1⟩ : Vec3 K)
            Axis.z sec = true :=
          (isInSection_grid_iff hwmem _ _).mpr rfl
        exact ⟨⟨b1, b2, (sec : K) - 1⟩, hwmem, hwsec, by
          rw [gridRotate_z_in sec c s _ hwsec]⟩
    obtain ⟨hXmin, hXmax⟩ := combo_minmax hXchar
    obtain ⟨hYmin, hYmax⟩ := combo_minmax hYchar
    simp only [Vec3.comp] at hAlongMin hAlongMax
    show calculateGroupCenter _ = (⟨0, 0, (sec : K) - 1⟩ : Vec3 K)
    simp only [calculateGroupCenter]
    rw [hAlongMin, hAlongMax, hXmin, hXmax, hYmin, hYmax]
    congr 1 <;> ring

/-- Two successive rotations of the same section about its center compose
to the rotation by the summed angle. -/
lemma gridRotate_trig_comp (a : Axis) (sec : Fin 3) (α β : ℝ) (v : Vec3 ℝ) :
    gridRotate a sec (Real.cos β) (Real.sin β)
        (gridRotate a sec (Real.cos α) (Real.sin α) v) =
      gridRotate a sec (Real.cos (α + β)) (Real.sin (α + β)) v := by
  by_cases hin : isInSection v a sec = true
  · have hin2 : isInSection
        (gridRotate a sec (Real.cos α) (Real.sin α) v) a sec = true := by
      rw [isInSection_gridRotate]
      exact hin
    cases a with
    | x =>
      rw [gridRotate_x_in sec (Real.cos α) (Real.sin α) v hin] at hin2 ⊢
      rw [gridRotate_x_in sec (Real.cos β) (Real.sin β) _ hin2,
        gridRotate_x_in sec (Real.cos (α + β)) (Real.sin (α + β)) v hin]
      congr 1 <;> · rw [Real.cos_add, Real.sin_add]; ring
    | y =>
      rw [gridRotate_y_in sec (Real.cos α) (Real.sin α) v hin] at hin2 ⊢
      rw [gridRotate_y_in sec (Real.cos β) (Real.sin β) _ hin2,
        gridRotate_y_in sec (Real.cos (α + β)) (Real.sin (α + β)) v hin]
      congr 1 <;> · rw [Real.cos_add, Real.sin_add]; ring
    | z =>
      rw [gridRotate_z_in sec (Real.cos α) (Real.sin α) v hin] at hin2 ⊢
      rw [gridRotate_z_in sec (Real.cos β) (Real.sin β) _ hin2,
        gridRotate_z_in sec (Real.cos (α + β)) (Real.sin (α + β)) v hin]
      congr 1 <;> · rw [Real.cos_add, Real.sin_add]; ring
  · have hin2 : ¬ isInSection
        (gridRotate a sec (Real.cos α) (Real.sin α) v) a sec = true := by
      rw [isInSection_gridRotate]
      exact hin
    rw [gridRotate_out a sec (Real.cos β) (Real.sin β) _ hin2,
      gridRotate_out a sec (Real.cos α) (Real.sin α) v hin,
      gridRotate_out a sec (Real.cos (α + β)) (Real.sin (α + β)) v hin]

/-- At the position level, two successive `applyRotation`s of the same
section of a grid-formed cube compose to one rotation by the summed
angle. -/
lemma applyRotation_comp {units : List (CubeUnit ℝ)}
    (h : (units.map CubeUnit.pos).Perm (gridPositions : List (Vec3 ℝ)))
    (a : Axis) (sec : Fin 3) (α β : ℝ) :
    (applyRotation (applyRotation units a sec α) a sec β).map CubeUnit.pos =
      (applyRotation units a sec (α + β)).map CubeUnit.pos := by
  obtain ⟨hne1, hcen1⟩ := section_center_grid h a sec
  obtain ⟨hne2, hcen2⟩ := mid_section_center h a sec (Real.cos α)
    (Real.sin α)
  unfold applyRotation
  rw [applyRotationCS_map_pos hne2 hcen2, applyRotationCS_map_pos hne1 hcen1,
    applyRotationCS_map_pos hne1 hcen1, List.map_map]
  congr 1
  funext v
  exact gridRotate_trig_comp a sec α β v

lemma cos_neg_pi_div_two : Real.cos (-(Real.pi / 2)) = 0 := by
  rw [Real.cos_neg, Real.cos_pi_div_two]

lemma sin_neg_pi_div_two : Real.sin (-(Real.pi / 2)) = -1 := by
  rw [Real.sin_neg, Real.sin_pi_div_two]

/-- A completed layer rotation (net angle in `{-π/2, 0, π/2}`) of a
grid-formed cube leaves the 27 positions a permutation of the grid. -/
lemma applyRotation_clamp_grid {units : List (CubeUnit ℝ)}
    (h : (units.map CubeUnit.pos).Perm (gridPositions : List (Vec3 ℝ)))
    (a : Axis) (sec : Fin 3) {θ : ℝ}
    (hθ : θ = -(Real.pi / 2) ∨ θ = 0 ∨ θ = Real.pi / 2) :
    ((applyRotation units a sec θ).map CubeUnit.pos).Perm
      (gridPositions : List (Vec3 ℝ)) := by
  obtain ⟨hne, hcen⟩ := section_center_grid h a sec
  unfold applyRotation
  rw [applyRotationCS_map_pos hne hcen]
  rcases hθ with rfl | rfl | rfl
  · rw [cos_neg_pi_div_two, sin_neg_pi_div_two]
    exact (h.map _).trans (gridRotate_eps_perm a sec (Or.inr rfl))
  · rw [Real.cos_zero, Real.sin_zero,
      show gridRotate a sec (1 : ℝ) 0 = id from
        funext (gridRotate_one_zero a sec), List.map_id]
    exact h
  · rw [Real.cos_pi_div_two, Real.sin_pi_div_two]
    exact (h.map _).trans (gridRotate_eps_perm a sec (Or.inl rfl))

/-- A completed whole-cube rotation (net angle in `{-π/2, 0, π/2}`) of a
grid-formed cube leaves the 27 positions a permutation of the grid. -/
lemma rotateEntireCube_clamp_grid {units : List (CubeUnit ℝ)}
    (h : (units.map CubeUnit.pos).Perm (gridPositions : List (Vec3 ℝ)))
    (a : Axis) {θ : ℝ}
    (hθ : θ = -(Real.pi / 2) ∨ θ = 0 ∨ θ = Real.pi / 2) :
    ((rotateEntireCube units a θ).map CubeUnit.pos).Perm
      (gridPositions : List (Vec3 ℝ)) := by
  unfold rotateEntireCube
  rw [rotateEntireCubeCS_map_pos (whole_center_grid h)]
  rcases hθ with rfl | rfl | rfl
  · rw [cos_neg_pi_div_two, sin_neg_pi_div_two]
    exact (h.map _).trans (wholeGridRotate_eps_perm a (Or.inr rfl))
  · rw [Real.cos_zero, Real.sin_zero,
      show wholeGridRotate a (1 : ℝ) 0 = id from
        funext (wholeGridRotate_one_zero a), List.map_id]
    exact h
  · rw [Real.cos_pi_div_two, Real.sin_pi_div_two]
    exact (h.map _).trans (wholeGridRotate_eps_perm a (Or.inl rfl))

/-- Closed evaluation of `nearestClampDistance` on the default clamp list:
the chosen clamp is `-π/2` for angles up to `-π/4` (ties at `-π/4` keep the
first-listed clamp), `0` up to `π/4` (ties at `π/4` keep `0`), and `π/2`
beyond. -/
lemma nearestClampDistance_eval (α : ℝ) :
    nearestClampDistance α [-(Real.pi / 2), 0, Real.pi / 2] =
      (if α ≤ -(Real.pi / 4) then -(Real.pi / 2)
        else if α ≤ Real.pi / 4 then 0 else Real.pi / 2) - α := by
  have hπ : (0 : ℝ) < Real.pi := Real.pi_pos
  simp only [nearestClampDistance, List.foldl_cons, List.foldl_nil]
  rcases le_or_lt α (-(Real.pi / 4)) with h1 | h1
  · have c1 : ¬ (|α - 0| < |α - -(Real.pi / 2)|) := by
      rw [not_lt]
      rcases abs_cases (α - 0) with ⟨e1, s1⟩ | ⟨e1, s1⟩ <;>
        rcases abs_cases (α - -(Real.pi / 2)) with ⟨e2, s2⟩ | ⟨e2, s2⟩ <;>
        rw [e1, e2] <;> linarith
    rw [if_neg c1]
    have c2 : ¬ (|α - Real.pi / 2| < |α - -(Real.pi / 2)|) := by
      rw [not_lt]
      rcases abs_cases (α - Real.pi / 2) with ⟨e1, s1⟩ | ⟨e1, s1⟩ <;>
        rcases abs_cases (α - -(Real.pi / 2)) with ⟨e2, s2⟩ | ⟨e2, s2⟩ <;>
        rw [e1, e2] <;> linarith
    rw [if_neg c2, if_pos h1]
  · rcases le_or_lt α (Real.pi / 4) with h2 | h2
    · have c1 : |α - 0| < |α - -(Real.pi / 2)| := by
        rcases abs_cases (α - 0) with ⟨e1, s1⟩ | ⟨e1, s1⟩ <;>
          rcases abs_cases (α - -(Real.pi / 2)) with ⟨e2, s2⟩ | ⟨e2, s2⟩ <;>
          rw [e1, e2] <;> linarith
      rw [if_pos c1]
      have c2 : ¬ (|α - Real.pi / 2| < |α - 0|) := by
        rw [not_lt]
        rcases abs_cases (α - Real.pi / 2) with ⟨e1, s1⟩ | ⟨e1, s1⟩ <;>
          rcases abs_cases (α - 0) with ⟨e2, s2⟩ | ⟨e2, s2⟩ <;>
          rw [e1, e2] <;> linarith
      rw [if_neg c2, if_neg (not_le.mpr h1), if_pos h2]
    · have c1 : |α - 0| < |α - -(Real.pi / 2)| := by
        rcases abs_cases (α - 0) with ⟨e1, s1⟩ | ⟨e1, s1⟩ <;>
          rcases abs_cases (α - -(Real.pi / 2)) with ⟨e2, s2⟩ | ⟨e2, s2⟩ <;>
          rw [e1, e2] <;> linarith
      rw [if_pos c1]
      have c2 : |α - Real.pi / 2| < |α - 0| := by
        rcases abs_cases (α - Real.pi / 2) with ⟨e1, s1⟩ | ⟨e1, s1⟩ <;>
          rcases abs_cases (α - 0) with ⟨e2, s2⟩ | ⟨e2, s2⟩ <;>
          rw [e1, e2] <;> linarith
      rw [if_pos c2, if_neg (not_le.mpr h1), if_neg (not_le.mpr h2)]

/-- The angle after adding the snap delta is one of the three clamps. -/
lemma nearestClampDistance_add (α : ℝ) :
    ∃ cl : ℝ, (cl = -(Real.pi / 2) ∨ cl = 0 ∨ cl = Real.pi / 2) ∧
      α + nearestClampDistance α [-(Real.pi / 2), 0, Real.pi / 2] = cl := by
  rw [nearestClampDistance_eval]
  split_ifs with h1 h2
  · exact ⟨-(Real.pi / 2), Or.inl rfl, by ring⟩
  · exact ⟨0, Or.inr (Or.inl rfl), by ring⟩
  · exact ⟨Real.pi / 2, Or.inr (Or.inr rfl), by ring⟩

/-! ### Claim theorems -/

/-- C1: every completed rotation operation — a programmatic layer rotation
(net angle `±π/2`, with `0` also allowed), a whole-cube rotation, or a drag
release (which applies the snap delta `nearestClampDistance` to the
accumulated drag angle `α` already applied to the grid state) — carries a
state whose 27 unit positions form the 3×3×3 grid to a state whose 27 unit
positions again form the 3×3×3 grid. -/
theorem claim_C1_rotations_preserve_grid
    (units : List (CubeUnit ℝ))
    (h : (units.map CubeUnit.pos).Perm (gridPositions : List (Vec3 ℝ)))
    (a : Axis) (sec : Fin 3) {θ : ℝ}
    (hθ : θ = -(Real.pi / 2) ∨ θ = 0 ∨ θ = Real.pi / 2)
    (st : EngineState) (α : ℝ)
    (hsu : st.units = applyRotation units a sec α)
    (hsa : st.rotationAxis = some a)
    (hss : st.rotationSection = some sec)
    (hsang : st.rotationAngle = some α) :
    ((applyRotation units a sec θ).map CubeUnit.pos).Perm
        (gridPositions : List (Vec3 ℝ)) ∧
      ((rotateEntireCube units a θ).map CubeUnit.pos).Perm
        (gridPositions : List (Vec3 ℝ)) ∧
      ((onMouseUp st).units.map CubeUnit.pos).Perm
        (gridPositions : List (Vec3 ℝ)) := by
  refine ⟨applyRotation_clamp_grid h a sec hθ,
    rotateEntireCube_clamp_grid h a hθ, ?_⟩
  have hu : (onMouseUp st).units = applyRotation st.units a sec
      (nearestClampDistance α [-(Real.pi / 2), 0, Real.pi / 2]) := by
    simp only [onMouseUp, hsa, hss, hsang]
  rw [hu, hsu,
    applyRotation_comp h a sec α
      (nearestClampDistance α [-(Real.pi / 2), 0, Real.pi / 2])]
  obtain ⟨cl, hclset, hcl⟩ := nearestClampDistance_add α
  rw [hcl]
  exact applyRotation_clamp_grid h a sec hclset

/-- Witness for C1 at a concrete input: the fresh cube, the middle `y`
layer, a clockwise quarter-turn, and a drag session with accumulated angle
`0`. -/
theorem claim_C1_rotations_preserve_grid_witness :
    ((applyRotation initUnits Axis.y 1 (Real.pi / 2)).map
        CubeUnit.pos).Perm (gridPositions : List (Vec3 ℝ)) ∧
      ((rotateEntireCube initUnits Axis.y (Real.pi / 2)).map
        CubeUnit.pos).Perm (gridPositions : List (Vec3 ℝ)) ∧
      ((onMouseUp
          { units := applyRotation initUnits Axis.y 1 0
            isDragging := true
            dragStartX := some 100
            dragStartY := some 100
            initialIntersect := none
            selectedFace := some Axis.z
            rotationAxis := some Axis.y
            rotationSection := some 1
            rotationAngle := some 0
            isRotating := false }).units.map CubeUnit.pos).Perm
        (gridPositions : List (Vec3 ℝ)) :=
  claim_C1_rotations_preserve_grid initUnits (List.Perm.refl _) Axis.y 1
    (Or.inr (Or.inr rfl)) _ 0 rfl rfl rfl rfl

/-- C6: while a whole-cube rotation is in flight (`isRotating`), every call
to `rotateCube` — any axis, direction and duration — returns the state
unchanged and starts no new animation, so two whole-cube animations are
never simultaneously active. -/
theorem claim_C6_rotateCube_guard (st : EngineState) (a : Axis)
    (d : Direction) (dur : ℝ) (hrot : st.isRotating = true) :
    rotateCube st a d dur = (st, none) := by
  simp [rotateCube, hrot]

/-- Witness for C6 at a concrete input. -/
theorem claim_C6_rotateCube_guard_witness :
    rotateCube { freshState with isRotating := true } Axis.x
      Direction.clockwise 500 = ({ freshState with isRotating := true }, none) :=
  claim_C6_rotateCube_guard _ Axis.x Direction.clockwise 500 rfl

/-- C9: the completion frame (progress `1`) of a layer-rotation animation
started via `rotate` (target angle `±π/2` from the direction) reports
completion and unconditionally sets `isRotating` to `false` and
`rotationAngle` to `null`, whatever their previous values — thereby
releasing the whole-cube re-entrancy guard if one was set. -/
theorem claim_C9_completion_clears_flags (units : List (CubeUnit ℝ))
    (rotationAngle : Option ℝ) (isRotating : Bool) (a : Axis) (sec : Fin 3)
    (d : Direction) :
    (sectionTick units rotationAngle isRotating a sec
        (targetAngleFor d) 1).rotationAngle = none ∧
      (sectionTick units rotationAngle isRotating a sec
        (targetAngleFor d) 1).isRotating = false ∧
      (sectionTick units rotationAngle isRotating a sec
        (targetAngleFor d) 1).completed = true := by
  simp [sectionTick]

/-- C8: both usage errors fail fast, mutating nothing: `getRotationAngle`
raises when the selected face equals the rotation axis, and `setRotation`
raises when no session angle is active (in the embedding an
`Except.error` carries no updated state, and in the source both throws
happen before any unit is touched). -/
theorem claim_C8_usage_errors_fail_fast (st : EngineState)
    (iW iH dX dY : ℝ) (a : Axis) (sec : Fin 3) :
    (st.selectedFace = st.rotationAxis →
      getRotationAngle st iW iH dX dY = Except.error faceAxisErr) ∧
    (st.rotationAngle = none →
      setRotation st a sec iW iH dX dY = Except.error noAngleErr) := by
  constructor
  · intro hfa
    simp [getRotationAngle, hfa]
  · intro hra
    simp [setRotation, hra]

/-- Witness for C8 at a concrete input: the fresh state has
`selectedFace = rotationAxis = null` and `rotationAngle = null`. -/
theorem claim_C8_usage_errors_fail_fast_witness :
    getRotationAngle freshState 800 600 3 4 = Except.error faceAxisErr ∧
      setRotation freshState Axis.x 0 800 600 3 4 =
        Except.error noAngleErr :=
  ⟨(claim_C8_usage_errors_fail_fast freshState 800 600 3 4 Axis.x 0).1 rfl,
    (claim_C8_usage_errors_fail_fast freshState 800 600 3 4 Axis.x 0).2 rfl⟩

/-- C10: for every valid grabbed-face/rotation-axis combination,
`getRotationAngle` throws the `Unable to determine angle` error whenever the
screen delta of the active case is exactly `0` or the recorded drag start
coordinate used as `startingPoint` is exactly `0` (or is absent): the
truthiness guard treats the number `0` as missing. -/
theorem claim_C10_truthiness_throws (st : EngineState) (iW iH dX dY : ℝ)
    (f axr : Axis) (hf : st.selectedFace = some f)
    (ha : st.rotationAxis = some axr) :
    (((f = Axis.x ∧ axr = Axis.y) ∨ (f = Axis.y ∧ axr = Axis.z) ∨
        (f = Axis.z ∧ axr = Axis.y)) →
      ((if f = Axis.y then -dX else dX) = 0 ∨ st.dragStartX = some 0) →
      getRotationAngle st iW iH dX dY = Except.error unableErr) ∧
    (((f = Axis.x ∧ axr = Axis.z) ∨ (f = Axis.y ∧ axr = Axis.x) ∨
        (f = Axis.z ∧ axr = Axis.x)) →
      (dY = 0 ∨ st.dragStartY = some 0) →
      getRotationAngle st iW iH dX dY = Except.error unableErr) := by
  constructor
  · rintro (⟨rfl, rfl⟩ | ⟨rfl, rfl⟩ | ⟨rfl, rfl⟩) hz <;>
      simp at hz <;>
      rcases hz with hz | hz <;>
      rcases hdx : st.dragStartX with _ | v <;>
      first
        | (rw [hdx, Option.some.injEq] at hz;
           simp [getRotationAngle, hf, ha, hdx, hz])
        | simp [getRotationAngle, hf, ha, hdx, hz]
  · rintro (⟨rfl, rfl⟩ | ⟨rfl, rfl⟩ | ⟨rfl, rfl⟩) hz <;>
      rcases hz with hz | hz <;>
      rcases hdy : st.dragStartY with _ | v <;>
      first
        | (rw [hdy, Option.some.injEq] at hz;
           simp [getRotationAngle, hf, ha, hdy, hz])
        | simp [getRotationAngle, hf, ha, hdy, hz]

/-- Witness for C10 at a concrete input: an `x` face dragged along a
resolved `y` axis with a horizontal delta of exactly `0` throws. -/
theorem claim_C10_truthiness_throws_witness :
    getRotationAngle { freshState with
        selectedFace := some Axis.x
        rotationAxis := some Axis.y
        dragStartX := some 100
        dragStartY := some 100 } 800 600 0 20 = Except.error unableErr :=
  (claim_C10_truthiness_throws _ 800 600 0 20 Axis.x Axis.y rfl rfl).1
    (Or.inl ⟨rfl, rfl⟩) (Or.inl (by norm_num))

/-- C5 counterexample: at elapsed time exactly `0` with duration `0`, the
progress computation is `0 / 0`, which is NaN in JavaScript — not `1` — so
the first frame does not compute `progress = 1` and the division does
produce an invalid value. -/
theorem claim_C5_cex :
    jsProgress (0 : ℝ) 0 = JSNum.nan ∧
      jsProgress (0 : ℝ) 0 ≠ JSNum.fin 1 := by
  constructor
  · simp [jsProgress, jsDiv, jsMin]
  · simp [jsProgress, jsDiv, jsMin]

/-- C5 amended: for every zero-duration rotation animation (layer or whole
cube), every frame with elapsed time strictly greater than `0` computes
`progress = 1` (the division yields `+Infinity`, which `Math.min` caps at
`1`, never NaN), applies the full target angle in that single frame, and
completes the animation. -/
theorem claim_C5_zero_duration (e : ℝ) (he : 0 < e)
    (units : List (CubeUnit ℝ)) (isRotating : Bool) (a : Axis) (sec : Fin 3)
    (target : ℝ) :
    jsProgress e 0 = JSNum.fin 1 ∧
      sectionTick units none isRotating a sec target 1 =
        ⟨applyRotation units a sec target, none, false, true⟩ ∧
      cubeTick units none isRotating a target 1 =
        ⟨rotateEntireCube units a target, none, false, true⟩ := by
  refine ⟨?_, ?_, ?_⟩
  · simp [jsProgress, jsDiv, jsMin, ne_of_gt he, he]
  · have heased : easeInOutCubic (1 : ℝ) = 1 := by
      norm_num [easeInOutCubic]
    simp [sectionTick, heased]
  · have heased : easeInOutCubic (1 : ℝ) = 1 := by
      norm_num [easeInOutCubic]
    simp [cubeTick, heased]

/-- Witness for the amended C5 at the concrete elapsed time `1`. -/
theorem claim_C5_zero_duration_witness :
    jsProgress (1 : ℝ) 0 = JSNum.fin 1 ∧
      sectionTick initUnits none false Axis.y 1 (Real.pi / 2) 1 =
        ⟨applyRotation initUnits Axis.y 1 (Real.pi / 2), none, false, true⟩ ∧
      cubeTick initUnits none false Axis.y (Real.pi / 2) 1 =
        ⟨rotateEntireCube initUnits Axis.y (Real.pi / 2), none, false,
          true⟩ :=
  claim_C5_zero_duration 1 (by norm_num) initUnits false Axis.y 1
    (Real.pi / 2)

/-- C7: `nearestClampDistance` returns `c - a` where `c` is the element of
`{-π/2, 0, π/2}` nearest to `a`, ties resolving to the first-listed clamp
(`-π/2` at `a = -π/4`, `0` at `a = π/4`); in particular the delta is `-0.1`
at input `0.1` and `π/2 - 1.4` at input `1.4`. -/
theorem claim_C7_nearestClampDistance (α : ℝ) :
    (∃ c : ℝ, (c = -(Real.pi / 2) ∨ c = 0 ∨ c = Real.pi / 2) ∧
      (∀ c' : ℝ, (c' = -(Real.pi / 2) ∨ c' = 0 ∨ c' = Real.pi / 2) →
        |α - c| ≤ |α - c'|) ∧
      nearestClampDistance α [-(Real.pi / 2), 0, Real.pi / 2] = c - α) ∧
    (α ≤ -(Real.pi / 4) →
      nearestClampDistance α [-(Real.pi / 2), 0, Real.pi / 2] =
        -(Real.pi / 2) - α) ∧
    (-(Real.pi / 4) < α → α ≤ Real.pi / 4 →
      nearestClampDistance α [-(Real.pi / 2), 0, Real.pi / 2] = 0 - α) ∧
    (Real.pi / 4 < α →
      nearestClampDistance α [-(Real.pi / 2), 0, Real.pi / 2] =
        Real.pi / 2 - α) ∧
    nearestClampDistance (0.1 : ℝ) [-(Real.pi / 2), 0, Real.pi / 2] =
      -(0.1 : ℝ) ∧
    nearestClampDistance (1.4 : ℝ) [-(Real.pi / 2), 0, Real.pi / 2] =
      Real.pi / 2 - 1.4 := by
  have hπ : (0 : ℝ) < Real.pi := Real.pi_pos
  have hπ3 : (3 : ℝ) < Real.pi := Real.pi_gt_three
  have hπ4 : Real.pi < 3.15 := Real.pi_lt_d2
  refine ⟨?_, ?_, ?_, ?_, ?_, ?_⟩
  · rcases le_or_lt α (-(Real.pi / 4)) with h1 | h1
    · refine ⟨-(Real.pi / 2), Or.inl rfl, ?_, by
        rw [nearestClampDistance_eval, if_pos h1]⟩
      rintro c' (rfl | rfl | rfl)
      · exact le_refl _
      · rcases abs_cases (α - -(Real.pi / 2)) with ⟨e1, s1⟩ | ⟨e1, s1⟩ <;>
          rcases abs_cases (α - 0) with ⟨e2, s2⟩ | ⟨e2, s2⟩ <;>
          rw [e1, e2] <;> linarith
      · rcases abs_cases (α - -(Real.pi / 2)) with ⟨e1, s1⟩ | ⟨e1, s1⟩ <;>
          rcases abs_cases (α - Real.pi / 2) with ⟨e2, s2⟩ | ⟨e2, s2⟩ <;>
          rw [e1, e2] <;> linarith
    · rcases le_or_lt α (Real.pi / 4) with h2 | h2
      · refine ⟨0, Or.inr (Or.inl rfl), ?_, by
          rw [nearestClampDistance_eval, if_neg (not_le.mpr h1), if_pos h2]⟩
        rintro c' (rfl | rfl | rfl)
        · rcases abs_cases (α - 0) with ⟨e1, s1⟩ | ⟨e1, s1⟩ <;>
            rcases abs_cases (α - -(Real.pi / 2)) with ⟨e2, s2⟩ | ⟨e2, s2⟩ <;>
            rw [e1, e2] <;> linarith
        · exact le_refl _
        · rcases abs_cases (α - 0) with ⟨e1, s1⟩ | ⟨e1, s1⟩ <;>
            rcases abs_cases (α - Real.pi / 2) with ⟨e2, s2⟩ | ⟨e2, s2⟩ <;>
            rw [e1, e2] <;> linarith
      · refine ⟨Real.pi / 2, Or.inr (Or.inr rfl), ?_, by
          rw [nearestClampDistance_eval, if_neg (not_le.mpr h1),
            if_neg (not_le.mpr h2)]⟩
        rintro c' (rfl | rfl | rfl)
        · rcases abs_cases (α - Real.pi / 2) with ⟨e1, s1⟩ | ⟨e1, s1⟩ <;>
            rcases abs_cases (α - -(Real.pi / 2)) with ⟨e2, s2⟩ | ⟨e2, s2⟩ <;>
            rw [e1, e2] <;> linarith
        · rcases abs_cases (α - Real.pi / 2) with ⟨e1, s1⟩ | ⟨e1, s1⟩ <;>
            rcases abs_cases (α - 0) with ⟨e2, s2⟩ | ⟨e2, s2⟩ <;>
            rw [e1, e2] <;> linarith
        · exact le_refl _
  · intro h1
    rw [nearestClampDistance_eval, if_pos h1]
  · intro h1 h2
    rw [nearestClampDistance_eval, if_neg (not_le.mpr h1), if_pos h2]
  · intro h2
    by_cases h1 : α ≤ -(Real.pi / 4)
    · exact absurd h2 (by nlinarith)
    · rw [nearestClampDistance_eval, if_neg h1, if_neg (not_le.mpr h2)]
  · rw [nearestClampDistance_eval, if_neg (by nlinarith),
      if_pos (by nlinarith)]
    norm_num
  · rw [nearestClampDistance_eval, if_neg (by nlinarith),
      if_neg (by nlinarith)]

/-- Witness for C7 at the concrete input `2` (beyond `π/4`, where the
nearest clamp is `π/2`). -/
theorem claim_C7_nearestClampDistance_witness :
    nearestClampDistance (2 : ℝ) [-(Real.pi / 2), 0, Real.pi / 2] =
      Real.pi / 2 - 2 :=
  (claim_C7_nearestClampDistance 2).2.2.2.1
    (by nlinarith [Real.pi_lt_d2])

/-- C4 counterexample: in a primed, unresolved drag session, a pointer move
whose horizontal delta is `50` pixels (well past the 10px threshold) but
whose vertical delta is `0` is a complete no-op — the axis and section stay
unresolved — because the source bails out when EITHER delta is below 10px,
contradicting the claim that any move with at least one delta reaching 10px
resolves the axis and section. -/
theorem claim_C4_cex :
    (10 : ℝ) ≤ |(150 : ℝ) - 100| ∧
      onMouseMove primedState 800 600 150 100 = Except.ok primedState ∧
      primedState.rotationAxis = none := by
  refine ⟨by norm_num, ?_, rfl⟩
  norm_num [onMouseMove, primedState, freshState]

/-- C4 amended: in a primed, unresolved drag session, a pointer move with
`|deltaX| < 10` OR `|deltaY| < 10` is a no-op, and a move with BOTH deltas
at least 10px resolves the rotation axis (from the nonzero face-normal
component and the dominant screen delta), the selected face, the session
angle (`0`) and the layer section (classifying the hit point's coordinate
along the resolved axis). -/
theorem claim_C4_threshold (st : EngineState) (inter : Intersect)
    (sx sy iW iH cx cy : ℝ)
    (hdrag : st.isDragging = true)
    (hint : st.initialIntersect = some inter)
    (hsx : st.dragStartX = some sx) (hsy : st.dragStartY = some sy)
    (hax : st.rotationAxis = none) :
    ((|cx - sx| < 10 ∨ |cy - sy| < 10) →
      onMouseMove st iW iH cx cy = Except.ok st) ∧
    (10 ≤ |cx - sx| → 10 ≤ |cy - sy| → ∀ n : Vec3 ℝ, inter.normal = some n →
      ((n.x ≠ 0 → n.y = 0 → n.z = 0 →
        onMouseMove st iW iH cx cy = Except.ok { st with
          rotationAngle := some 0
          rotationAxis := some (if |cx - sx| > |cy - sy| then Axis.y
            else Axis.z)
          selectedFace := some Axis.x
          rotationSection := some (getSection (inter.point.comp
            (if |cx - sx| > |cy - sy| then Axis.y else Axis.z))) }) ∧
       (n.x = 0 → n.y ≠ 0 → n.z = 0 →
        onMouseMove st iW iH cx cy = Except.ok { st with
          rotationAngle := some 0
          rotationAxis := some (if |cx - sx| > |cy - sy| then Axis.z
            else Axis.x)
          selectedFace := some Axis.y
          rotationSection := some (getSection (inter.point.comp
            (if |cx - sx| > |cy - sy| then Axis.z else Axis.x))) }) ∧
       (n.x = 0 → n.y = 0 → n.z ≠ 0 →
        onMouseMove st iW iH cx cy = Except.ok { st with
          rotationAngle := some 0
          rotationAxis := some (if |cx - sx| > |cy - sy| then Axis.y
            else Axis.x)
          selectedFace := some Axis.z
          rotationSection := some (getSection (inter.point.comp
            (if |cx - sx| > |cy - sy| then Axis.y else Axis.x))) }))) := by
  constructor
  · intro hsmall
    simp [onMouseMove, hint, hdrag, hsx, hsy, hsmall]
  · intro hx10 hy10 n hn
    have hthresh : ¬ (|cx - sx| < 10 ∨ |cy - sy| < 10) := by
      push_neg
      exact ⟨not_lt.mp (by simpa using not_lt.mpr hx10),
        not_lt.mp (by simpa using not_lt.mpr hy10)⟩
    refine ⟨?_, ?_, ?_⟩
    · intro h1 h2 h3
      simp [onMouseMove, hint, hdrag, hsx, hsy, hax, hthresh, hn,
        jsNeqZero, h1, h2, h3]
    · intro h1 h2 h3
      simp [onMouseMove, hint, hdrag, hsx, hsy, hax, hthresh, hn,
        jsNeqZero, h1, h2, h3]
    · intro h1 h2 h3
      simp [onMouseMove, hint, hdrag, hsx, hsy, hax, hthresh, hn,
        jsNeqZero, h1, h2, h3]

/-- Witness for the amended C4: dragging from `(100, 100)` to `(150, 111)`
on the front `z` face resolves axis `y` (horizontal delta dominates), face
`z`, and section `1` (the hit point's `y` coordinate `-0.2` is in the
middle layer). -/
theorem claim_C4_threshold_witness :
    onMouseMove primedState 800 600 150 111 = Except.ok { primedState with
      rotationAngle := some 0
      rotationAxis := some Axis.y
      selectedFace := some Axis.z
      rotationSection := some 1 } := by
  have h := ((claim_C4_threshold primedState ⟨⟨0.3, -0.2, 1.5⟩, some ⟨0, 0, 1⟩⟩
      100 100 800 600 150 111 rfl rfl rfl rfl rfl).2
      (by norm_num) (by norm_num) ⟨0, 0, 1⟩ rfl).2.2
      (by norm_num) (by norm_num) (by norm_num)
  have e1 : (if |(150 : ℝ) - 100| > |(111 : ℝ) - 100| then Axis.y
      else Axis.x) = Axis.y := by norm_num
  rw [e1] at h
  have e2 : getSection ((Vec3.mk (0.3 : ℝ) (-0.2) 1.5).comp Axis.y) = 1 := by
    norm_num [getSection, Vec3.comp]
  rw [e2] at h
  exact h

set_option maxHeartbeats 2000000 in
/-- Each of the nine (axis, section) layers of the freshly built grid holds
exactly 9 of the 27 positions. -/
lemma grid_countP (a : Axis) (sec : Fin 3) :
    ((gridPositions : List (Vec3 ℝ)).countP
      (fun v => isInSection v a sec)) = 9 := by
  cases a <;> fin_cases sec <;>
    norm_num [gridPositions, initUnits, isInSection, Vec3.comp,
      List.countP_cons, List.countP_nil, Fin.ext_iff]

/-- Filtering a list by three mutually exclusive, exhaustive predicates and
concatenating yields a permutation of the list. -/
lemma filter_three_partition {α : Type} {l : List α} {p0 p1 p2 : α → Bool}
    (h : ∀ x ∈ l,
      (p0 x = true ∧ p1 x = false ∧ p2 x = false) ∨
      (p0 x = false ∧ p1 x = true ∧ p2 x = false) ∨
      (p0 x = false ∧ p1 x = false ∧ p2 x = true)) :
    (l.filter p0 ++ l.filter p1 ++ l.filter p2).Perm l := by
  induction l with
  | nil => simp
  | cons x t ih =>
    have hx := h x (List.mem_cons_self x t)
    have ht := ih fun y hy => h y (List.mem_cons_of_mem x hy)
    rcases hx with ⟨h0, h1, h2⟩ | ⟨h0, h1, h2⟩ | ⟨h0, h1, h2⟩
    · simp only [List.filter_cons, h0, h1, h2, if_true, if_false,
        Bool.false_eq_true]
      have e : ((x :: t.filter p0) ++ t.filter p1 ++ t.filter p2) =
          x :: (t.filter p0 ++ t.filter p1 ++ t.filter p2) := by
        simp
      rw [e]
      exact ht.cons x
    · simp only [List.filter_cons, h0, h1, h2, if_true, if_false,
        Bool.false_eq_true]
      have e : (t.filter p0 ++ (x :: t.filter p1) ++ t.filter p2) =
          t.filter p0 ++ x :: (t.filter p1 ++ t.filter p2) := by
        simp
      rw [e]
      refine List.perm_middle.trans (List.Perm.cons x ?_)
      rw [← List.append_assoc]
      exact ht
    · simp only [List.filter_cons, h0, h1, h2, if_true, if_false,
        Bool.false_eq_true]
      refine List.perm_middle.trans (List.Perm.cons x ?_)
      exact ht

/-- C2: for a grid-formed cube, every layer selection returns exactly 9
units; for a fixed axis the three sections are pairwise disjoint and their
concatenation is a permutation of all 27 units. -/
theorem claim_C2_layer_partition (units : List (CubeUnit ℝ))
    (h : (units.map CubeUnit.pos).Perm (gridPositions : List (Vec3 ℝ)))
    (a : Axis) :
    (∀ sec : Fin 3, (getSectionCubes units a sec).length = 9) ∧
      ((getSectionCubes units a 0 ++ getSectionCubes units a 1 ++
        getSectionCubes units a 2).Perm units) ∧
      (∀ s1 s2 : Fin 3, s1 ≠ s2 → ∀ u, u ∈ getSectionCubes units a s1 →
        u ∉ getSectionCubes units a s2) := by
  refine ⟨?_, ?_, ?_⟩
  · intro sec
    have e1 : (getSectionCubes units a sec).length =
        units.countP (fun u => isInSection u.pos a sec) :=
      (List.countP_eq_length_filter _ _).symm
    have e2 : units.countP (fun u => isInSection u.pos a sec) =
        (units.map CubeUnit.pos).countP (fun v => isInSection v a sec) :=
      (List.countP_map (fun v => isInSection v a sec) CubeUnit.pos
        units).symm
    rw [e1, e2, h.countP_eq, grid_countP]
  · simp only [getSectionCubes]
    exact filter_three_partition fun u _ => isInSection_trichot u.pos a
  · intro s1 s2 hne u hu1 hu2
    obtain ⟨-, h1⟩ := mem_getSectionCubes.mp hu1
    obtain ⟨-, h2⟩ := mem_getSectionCubes.mp hu2
    rcases isInSection_trichot u.pos a with ⟨t0, t1, t2⟩ | ⟨t0, t1, t2⟩ |
        ⟨t0, t1, t2⟩ <;>
      fin_cases s1 <;> fin_cases s2 <;> simp_all

/-- Witness for C2 on the fresh cube along the `x` axis. -/
theorem claim_C2_layer_partition_witness :
    (∀ sec : Fin 3,
      (getSectionCubes (initUnits : List (CubeUnit ℝ)) Axis.x sec).length =
        9) ∧
      ((getSectionCubes (initUnits : List (CubeUnit ℝ)) Axis.x 0 ++
        getSectionCubes (initUnits : List (CubeUnit ℝ)) Axis.x 1 ++
        getSectionCubes (initUnits : List (CubeUnit ℝ)) Axis.x 2).Perm
          initUnits) ∧
      (∀ s1 s2 : Fin 3, s1 ≠ s2 → ∀ u,
        u ∈ getSectionCubes (initUnits : List (CubeUnit ℝ)) Axis.x s1 →
        u ∉ getSectionCubes (initUnits : List (CubeUnit ℝ)) Axis.x s2) :=
  claim_C2_layer_partition initUnits (List.Perm.refl _) Axis.x

/-- On the fresh cube, the zero-duration clockwise quarter-turn of the
middle `y` layer is exactly the map sending each middle-layer unit
`(x, y, z)` to `(z, y, -x)` (the 90° rotation about the layer center, the
origin) and leaving every other unit untouched. -/
lemma applyRotation_initUnits_y1 :
    applyRotation (initUnits : List (CubeUnit ℝ)) Axis.y 1 (Real.pi / 2) =
      initUnits.map fun u =>
        if isInSection u.pos Axis.y 1 then
          ⟨⟨u.pos.z, u.pos.y, -u.pos.x⟩,
            Mat3.mul ⟨0, 0, 1, 0, 1, 0, -1, 0, 0⟩ u.orient⟩
        else u := by
  obtain ⟨hne, hcen⟩ := section_center_grid
    (List.Perm.refl ((initUnits : List (CubeUnit ℝ)).map CubeUnit.pos))
    Axis.y 1
  have hc : (sectionCenter Axis.y 1 : Vec3 ℝ) = ⟨0, 0, 0⟩ := by
    simp [sectionCenter]
  have hR : makeRotationAxis (axisVec Axis.y) (Real.cos (Real.pi / 2))
      (Real.sin (Real.pi / 2)) = (⟨0, 0, 1, 0, 1, 0, -1, 0, 0⟩ : Mat3 ℝ) := by
    rw [Real.cos_pi_div_two, Real.sin_pi_div_two]
    simp [makeRotationAxis, axisVec]
  simp only [applyRotation, applyRotationCS]
  rw [if_neg (by simpa using hne), hcen, hc, hR]
  congr 1
  funext u
  by_cases hu : isInSection u.pos Axis.y 1 <;>
    simp [hu, rotateUnitAroundPivot, Mat3.apply, Vec3.sub, Vec3.add]

/-- C3: from the engine's initial state, `rotate('y', 1, 'clockwise', 0)`
completes on the first frame (any positive elapsed time): the 9 units whose
`y` coordinate lies in `[-1/2, 1/2]` have their positions transformed by
exactly the 90° rotation `(x, y, z) ↦ (z, y, -x)` about the y-axis through
the layer's center, and the other 18 units keep their position and
orientation unchanged. -/
theorem claim_C3_zero_duration_middle_y (e : ℝ) (he : 0 < e) :
    sectionTickAt initUnits none false Axis.y 1 (Real.pi / 2) 0 e =
      some ⟨initUnits.map fun u =>
          if isInSection u.pos Axis.y 1 then
            ⟨⟨u.pos.z, u.pos.y, -u.pos.x⟩,
              Mat3.mul ⟨0, 0, 1, 0, 1, 0, -1, 0, 0⟩ u.orient⟩
          else u,
        none, false, true⟩ ∧
      ((initUnits : List (CubeUnit ℝ)).filter
        (fun u => isInSection u.pos Axis.y 1)).length = 9 ∧
      (∀ u ∈ (initUnits : List (CubeUnit ℝ)),
        (isInSection u.pos Axis.y 1 = true ↔
          -(1 / 2 : ℝ) ≤ u.pos.y ∧ u.pos.y ≤ 1 / 2)) := by
  refine ⟨?_, ?_, ?_⟩
  · have hp : jsProgress e 0 = JSNum.fin 1 := by
      simp [jsProgress, jsDiv, jsMin, ne_of_gt he, he]
    have heased : easeInOutCubic (1 : ℝ) = 1 := by
      norm_num [easeInOutCubic]
    simp only [sectionTickAt, hp]
    simp [sectionTick, heased, applyRotation_initUnits_y1]
  · have e1 : ((initUnits : List (CubeUnit ℝ)).filter
        (fun u => isInSection u.pos Axis.y 1)).length =
        (initUnits : List (CubeUnit ℝ)).countP
          (fun u => isInSection u.pos Axis.y 1) :=
      (List.countP_eq_length_filter _ _).symm
    have e2 : (initUnits : List (CubeUnit ℝ)).countP
        (fun u => isInSection u.pos Axis.y 1) =
        ((initUnits : List (CubeUnit ℝ)).map CubeUnit.pos).countP
          (fun v => isInSection v Axis.y 1) :=
      (List.countP_map (fun v => isInSection v Axis.y 1) CubeUnit.pos
        initUnits).symm
    rw [e1, e2]
    exact grid_countP Axis.y 1
  · intro u _
    exact isInSection_one u.pos Axis.y

/-- Witness for C3 at the concrete elapsed time `1`. -/
theorem claim_C3_zero_duration_middle_y_witness :
    sectionTickAt initUnits none false Axis.y 1 (Real.pi / 2) 0 1 =
      some ⟨initUnits.map fun u =>
          if isInSection u.pos Axis.y 1 then
            ⟨⟨u.pos.z, u.pos.y, -u.pos.x⟩,
              Mat3.mul ⟨0, 0, 1, 0, 1, 0, -1, 0, 0⟩ u.orient⟩
          else u,
        none, false, true⟩ ∧
      ((initUnits : List (CubeUnit ℝ)).filter
        (fun u => isInSection u.pos Axis.y 1)).length = 9 ∧
      (∀ u ∈ (initUnits : List (CubeUnit ℝ)),
        (isInSection u.pos Axis.y 1 = true ↔
          -(1 / 2 : ℝ) ≤ u.pos.y ∧ u.pos.y ≤ 1 / 2)) :=
  claim_C3_zero_duration_middle_y 1 (by norm_num)

end RubiksCube
